import Mathlib

/-!
Verification development for the vscode-iwyu extension core
(`src/extension.ts`).  The TypeScript functions relevant to the claims are
shallowly embedded as executable Lean definitions:

* `parseCommandLine`  — the POSIX-like command-line tokenizer (lines 195-236);
* `IwyuData.update`   — the analyzer-report parser (lines 68-114);
* `getIncludeGuard`   — expected-guard derivation (lines 368-383);
* `iwyuDiagnosticsScan` — the diagnostics scanner and include-guard state
  machine (lines 631-762), including the quick-fix for a missing `#ifndef`
  (lines 875-908);
* the `compile_commands.json` error-reporting state machine
  (lines 303-351) and the in-flight counter accounting of `iwyuRun`
  (lines 514-531).

Strings are processed on their underlying `List Char`; JavaScript's `\s`
character class is approximated by the ASCII whitespace characters that can
occur inside a single document line.
-/

namespace Iwyu

/-- The single-quote character `'` (used by the tokenizer). -/
def qChar : Char := Char.ofNat 39

/-- The double-quote character `"` (used by the tokenizer). -/
def dqChar : Char := Char.ofNat 34

/-- The backslash character `\` (used by the tokenizer). -/
def bsChar : Char := Char.ofNat 92

/-!
## Command-line tokenizer (`parseCommandLine`, extension.ts lines 195-236)

The source walks the string with an index, tracking `single`/`double` quote
modes, pushing `cmd.substring(start, i)` at each unquoted space run and the
final `cmd.substring(start, cmd.length)` at the end.  Because every character
between two separators is retained verbatim (quotes and backslashes are kept,
a backslash merely also copies the following character unconditionally), the
walk is embedded with an explicit accumulator `acc` holding the current
token's characters in reverse.  `acc` is non-empty exactly when the source's
`start < i`.
-/

/-- Mode of the tokenizer loop: the source's pair of booleans
`single`/`double` (never both true), plus `esc`, which models the `i++` that
skips (and thereby copies verbatim) the character following a backslash. -/
inductive PclMode where
  | norm
  | single
  | double
  | esc
deriving DecidableEq

/-- The tokenizer loop.  `acc` holds the current token's characters in
reverse; it is non-empty exactly when the source's `start < i`. -/
def pclRun : PclMode → List Char → List Char → List String
  | _, [], acc => if acc.isEmpty then [] else [String.mk acc.reverse]
  | .single, c :: rest, acc =>
    if c = qChar then pclRun .norm rest (c :: acc) else pclRun .single rest (c :: acc)
  | .double, c :: rest, acc =>
    if c = dqChar then pclRun .norm rest (c :: acc) else pclRun .double rest (c :: acc)
  | .esc, c :: rest, acc => pclRun .norm rest (c :: acc)
  | .norm, c :: rest, acc =>
    if c = ' ' then
      if acc.isEmpty then pclRun .norm rest [] else String.mk acc.reverse :: pclRun .norm rest []
    else if c = qChar then pclRun .single rest (c :: acc)
    else if c = dqChar then pclRun .double rest (c :: acc)
    else if c = bsChar then pclRun .esc rest (c :: acc)
    else pclRun .norm rest (c :: acc)

/-- `parseCommandLine` (extension.ts lines 195-236): splits a command line on
runs of unquoted spaces, respecting `\`, `"` and `'`; all characters other
than unquoted separator spaces are retained literally. -/
def parseCommandLine (cmd : String) : List String :=
  pclRun .norm cmd.data []

/-- A character with no special meaning for the tokenizer: not a space, not a
quote of either kind, not a backslash. -/
def PlainChar (c : Char) : Prop := c ≠ ' ' ∧ c ≠ qChar ∧ c ≠ dqChar ∧ c ≠ bsChar

instance : DecidablePred PlainChar := fun _ => by unfold PlainChar; infer_instance

/-!
## Character classes and the regular expressions of extension.ts (lines 30-34)

The regexes are deterministic (their greedy repetitions are followed by
characters outside the repeated class), so each is embedded as a direct
parser on the line's characters.  JavaScript's `\s` is approximated by ASCII
whitespace (space, tab, CR, VT, FF) — line texts never contain `\n`.
-/

/-- ASCII approximation of the JS `\s` class for characters inside a line. -/
def isWsChar (c : Char) : Bool :=
  c = ' ' || c = Char.ofNat 9 || c = Char.ofNat 13 || c = Char.ofNat 11 || c = Char.ofNat 12

/-- First character of the identifier class `[_a-zA-Z]`. -/
def isIdentStartChar (c : Char) : Bool :=
  c = '_' || ('a' ≤ c && c ≤ 'z') || ('A' ≤ c && c ≤ 'Z')

/-- The identifier class `[_a-zA-Z0-9]`. -/
def isIdentChar (c : Char) : Bool :=
  isIdentStartChar c || ('0' ≤ c && c ≤ '9')

/-- Drop a (possibly empty) run of whitespace: the regex `\s*`. -/
def dropWs (cs : List Char) : List Char := cs.dropWhile isWsChar

/-- The regex `\s+`: require at least one whitespace character, consume the
whole run. -/
def wsPlus (cs : List Char) : Option (List Char) :=
  match cs with
  | [] => none
  | c :: rest => if isWsChar c then some (dropWs rest) else none

/-- A literal keyword. -/
def expectKw (kw : List Char) (cs : List Char) : Option (List Char) :=
  if kw.isPrefixOf cs then some (cs.drop kw.length) else none

/-- The common regex prefix `^\s*#\s*`, returning both the consumed
characters (the part of capture group 1 before the keyword) and the rest. -/
def afterHash2 (cs : List Char) : Option (List Char × List Char) :=
  match cs.dropWhile isWsChar with
  | [] => none
  | c :: rest =>
    if c = '#' then
      some (cs.takeWhile isWsChar ++ c :: rest.takeWhile isWsChar, rest.dropWhile isWsChar)
    else none

/-- The common regex prefix `^\s*#\s*` (rest only). -/
def afterHash (cs : List Char) : Option (List Char) :=
  (afterHash2 cs).map (fun r => r.2)

/-- `INCLUDE_RE = /^\s*#\s*include\s+(<[^>]*>|"[^"]*")/` (line 30): returns
the captured include token (delimiters included), or `none`. -/
def includeTokenOf (s : String) : Option String :=
  match afterHash s.data with
  | none => none
  | some r1 =>
    match expectKw "include".data r1 with
    | none => none
    | some r2 =>
      match wsPlus r2 with
      | none => none
      | some r3 =>
        match r3 with
        | [] => none
        | c :: t =>
          if c = '<' then
            match t.dropWhile (fun d => !(d = '>')) with
            | _ :: _ => some (String.mk ('<' :: t.takeWhile (fun d => !(d = '>')) ++ ['>']))
            | [] => none
          else if c = dqChar then
            match t.dropWhile (fun d => !(d = dqChar)) with
            | _ :: _ => some (String.mk (dqChar :: t.takeWhile (fun d => !(d = dqChar)) ++ [dqChar]))
            | [] => none
          else none

/-- An identifier run: the regex fragment `([_a-zA-Z][_a-zA-Z0-9]*)`,
captured greedily, with the remainder. -/
def identSpan (cs : List Char) : Option (List Char × List Char) :=
  match cs with
  | [] => none
  | c :: rest =>
    if isIdentStartChar c then
      some (c :: rest.takeWhile isIdentChar, rest.dropWhile isIdentChar)
    else none

/-- The regex suffix `(\s.*)?$`: an empty remainder gives an undefined group
(rendered `""`, as the source does with `guard[3] || ""`), a remainder
starting with whitespace gives the trailing text, anything else fails the
whole match. -/
def tailOpt (cs : List Char) : Option String :=
  match cs with
  | [] => some ""
  | c :: _ => if isWsChar c then some (String.mk cs) else none

/-- Common shape of `INC_GUARD_IFNDEF` and `INC_GUARD_DEFINE` (lines 31-32):
`^(\s*#\s*KW)(?:\s+)([_a-zA-Z][_a-zA-Z0-9]*)(\s.*)?$`, returning the three
capture groups. -/
def guardHeadMatch (kw : List Char) (s : String) : Option (String × String × String) :=
  match afterHash2 s.data with
  | none => none
  | some (g0, r1) =>
    match expectKw kw r1 with
    | none => none
    | some r2 =>
      match wsPlus r2 with
      | none => none
      | some r3 =>
        match identSpan r3 with
        | none => none
        | some (id, r4) =>
          match tailOpt r4 with
          | none => none
          | some g3 => some (String.mk (g0 ++ kw), String.mk id, g3)

/-- `INC_GUARD_IFNDEF` (line 31). -/
def ifndefMatch (s : String) : Option (String × String × String) :=
  guardHeadMatch "ifndef".data s

/-- `INC_GUARD_DEFINE` (line 32). -/
def defineMatch (s : String) : Option (String × String × String) :=
  guardHeadMatch "define".data s

/-- `INC_GUARD_ENDIF` (line 33):
`^(\s*#\s*endif)(?:\s+\/\/\s+([_a-zA-Z][_a-zA-Z0-9]*)(\s.*)?)?$`.  Returns
the guard identifier of the trailing comment, `""` when the whole comment
group is absent (as the source's `match[0]?.[2] || ""`), `none` when the
line does not match at all. -/
def endifMatch (s : String) : Option String :=
  match afterHash s.data with
  | none => none
  | some r1 =>
    match expectKw "endif".data r1 with
    | none => none
    | some r2 =>
      match r2 with
      | [] => some ""
      | _ :: _ =>
        match wsPlus r2 with
        | none => none
        | some r3 =>
          match expectKw "//".data r3 with
          | none => none
          | some r4 =>
            match wsPlus r4 with
            | none => none
            | some r5 =>
              match identSpan r5 with
              | none => none
              | some (id, r6) =>
                match tailOpt r6 with
                | none => none
                | some _ => some (String.mk id)

/-- `PRAGMA_ONCE` (line 34): `^\s*#\s*pragma\s+once(\s*(\/\/.*))?$`. -/
def pragmaMatch (s : String) : Bool :=
  match afterHash s.data with
  | none => false
  | some r1 =>
    match expectKw "pragma".data r1 with
    | none => false
    | some r2 =>
      match wsPlus r2 with
      | none => false
      | some r3 =>
        match expectKw "once".data r3 with
        | none => false
        | some r4 =>
          match r4 with
          | [] => true
          | _ :: _ => "//".data.isPrefixOf (dropWs r4)

/-- Helper for JS `String.indexOf`. -/
def idxAux : List Char → List Char → Nat → Option Nat
  | cs, pat, i =>
    if pat.isPrefixOf cs then some i
    else
      match cs with
      | [] => none
      | _ :: t => idxAux t pat (i + 1)

/-- JS `String.indexOf`: index of the first occurrence, `-1` when absent. -/
def strIndexOf (s sub : String) : Int :=
  match idxAux s.data sub.data 0 with
  | some i => (i : Int)
  | none => -1

/-!
## Analyzer report model (`IwyuData`, extension.ts lines 55-115)
-/

/-- The source's `IncludeInfo`: the literal include token and the full line
it was found on (field `include` is rendered `includeToken` here). -/
structure IncludeInfo where
  includeToken : String
  line : String
deriving DecidableEq

/-- The source's `IwyuData` (lines 60-66).  `updateTime` is an abstract
clock value supplied by the caller in place of `Date.now()`. -/
structure IwyuData where
  output : String := ""
  updateTime : Nat := 0
  running : Nat := 0
  includesToAdd : List IncludeInfo := []
  includesToRemove : List IncludeInfo := []
  includesList : List IncludeInfo := []
deriving DecidableEq

/-- The section state of the report parser (the source's local `enum Mode`). -/
inductive ReportMode where
  | unused
  | add
  | remove
  | list
deriving DecidableEq

/-- One line of `IwyuData.update`'s `forEach` body (lines 76-113): marker
lines switch the mode, a blank line resets it, and in an active section the
line's include token (after stripping the mandatory `- ` prefix in the
remove section) is appended to that section's list. -/
def reportStep (fileName : String) (enableDiagnostics : Bool)
    (st : ReportMode × List IncludeInfo × List IncludeInfo × List IncludeInfo)
    (line : String) :
    ReportMode × List IncludeInfo × List IncludeInfo × List IncludeInfo :=
  let mode := st.1
  let ta := st.2.1
  let tr := st.2.2.1
  let tl := st.2.2.2
  if line = fileName ++ " should add these lines:" then (.add, ta, tr, tl)
  else if line = fileName ++ " should remove these lines:" then (.remove, ta, tr, tl)
  else if line = "The full include-list for " ++ fileName ++ ":" then (.list, ta, tr, tl)
  else if line = "" then (.unused, ta, tr, tl)
  else
    match mode with
    | .remove =>
      if !enableDiagnostics then (mode, ta, tr, tl)
      else if line.startsWith "- " then
        let line2 := line.drop 2
        match includeTokenOf line2 with
        | none => (mode, ta, tr, tl)
        | some inc => (mode, ta, tr ++ [⟨inc, line2⟩], tl)
      else (mode, ta, tr, tl)
    | .add =>
      match includeTokenOf line with
      | none => (mode, ta, tr, tl)
      | some inc => (mode, ta ++ [⟨inc, line⟩], tr, tl)
    | .list =>
      match includeTokenOf line with
      | none => (mode, ta, tr, tl)
      | some inc => (mode, ta, tr, tl ++ [⟨inc, line⟩])
    | .unused => (mode, ta, tr, tl)

/-- `IwyuData.update` (lines 68-114): reset the three lists, then fold the
report's lines.  `now` stands for `Date.now()`. -/
def IwyuData.update (d : IwyuData) (output fileName : String)
    (enableDiagnostics : Bool) (now : Nat) : IwyuData :=
  let st := (output.splitOn "\n").foldl (reportStep fileName enableDiagnostics)
    (.unused, [], [], [])
  { d with
    output := output
    updateTime := now
    includesToAdd := st.2.1
    includesToRemove := st.2.2.1
    includesList := st.2.2.2 }

/-!
## Expected-guard derivation (`ConfigData.getIncludeGuard`, lines 368-383)
-/

/-- JS `String.replace` with a plain-string pattern: replace the first
occurrence only (the original string when there is none). -/
def replaceFirstL : List Char → List Char → List Char → List Char
  | s, pat, rep =>
    if pat.isPrefixOf s then rep ++ s.drop pat.length
    else
      match s with
      | [] => []
      | c :: t => c :: replaceFirstL t pat rep

/-- ASCII upper-casing, the effect of JS `toUpperCase` on the sanitized
guard token (which only contains `[_a-zA-Z0-9]`). -/
def toUpperAscii (c : Char) : Char :=
  if 'a' ≤ c && c ≤ 'z' then Char.ofNat (c.toNat - 32) else c

/-- `ConfigData.getIncludeGuard` (lines 368-383) with the configured template
passed explicitly.  `path.sep` is the POSIX `/`. -/
def getIncludeGuard (guard : String) (fileName : String) (directory : String) : String :=
  if guard = "" then ""
  else
    let f1 : String :=
      if directory.data.isPrefixOf fileName.data then
        String.mk (fileName.data.drop directory.data.length)
      else fileName
    let f2 : String :=
      match f1.data with
      | [] => f1
      | c :: rest => if c = '/' then String.mk rest else f1
    let f3 : List Char := f2.data.map (fun c => if isIdentChar c then c else '_')
    String.mk (replaceFirstL (replaceFirstL guard.data "${file}".data f3)
      "${FILE}".data (f3.map toUpperAscii))

/-!
## Compilation-database failure reporting (lines 250-313) and index (155-191)
-/

/-- The error-deduplication fields of `ConfigData` (lines 254-255), in their
initial state `⟨false, none⟩`. -/
structure CcErrorState where
  compileCommandsErrorShown : Bool
  compileCommandsErrorPath : Option String
deriving DecidableEq

/-- `ConfigData.badCompileCommandsSetting` (lines 303-313) as a state
transition; the booleans report whether the log line was emitted and whether
the user-visible `showErrorMessage` pop-up was raised by this call. -/
def badCompileCommandsSetting (st : CcErrorState) (path : String) :
    CcErrorState × Bool × Bool :=
  let didLog : Bool :=
    match st.compileCommandsErrorPath with
    | none => true
    | some p => decide (p ≠ path)
  let st1 := if didLog then { st with compileCommandsErrorPath := some path } else st
  let didShow : Bool := !st.compileCommandsErrorShown
  ({ st1 with compileCommandsErrorShown := true }, didLog, didShow)

/-- A sequence of failing `compile_commands.json` lookups: feed each bad path
to `badCompileCommandsSetting` in order, collecting the (log, show) events. -/
def runBadPaths : CcErrorState → List String → CcErrorState × List (Bool × Bool)
  | st, [] => (st, [])
  | st, p :: ps =>
    let r := badCompileCommandsSetting st p
    let rest := runBadPaths r.1 ps
    (rest.1, r.2 :: rest.2)

/-- One entry of the JSON compilation database (interface at lines 117-122). -/
structure IJsonCompileCommand where
  file : String
  command : Option String
  arguments : Option (List String)
  directory : Option String

/-- The source's `CompileCommand` (constructor at lines 129-142), without the
per-entry `IwyuData` cache (fresh-initialized there). -/
structure CompileCommand where
  file : String
  command : String
  arguments : List String
  directory : String

/-- `CompileCommand`'s constructor: split a preexisting `arguments` array, or
tokenize the `command` string with `parseCommandLine`. -/
def CompileCommand.ofEntry (entry : IJsonCompileCommand) (directory : String) :
    CompileCommand :=
  let args := entry.arguments.getD []
  if args.isEmpty then
    let args2 := parseCommandLine (entry.command.getD "")
    ⟨entry.file, args2.headD "", args2.drop 1, directory⟩
  else ⟨entry.file, args.headD "", args.drop 1, directory⟩

/-- A path is absolute when it starts with `/` (POSIX `path.isAbsolute`). -/
def isAbsPath (p : String) : Bool := p.startsWith "/"

/-- Node's `path.resolve(workspacefolder, directory, fname)` restricted to
well-formed inputs (rightmost absolute segment wins; no `..` normalization,
which the claims never exercise). -/
def resolve3 (wf dir f : String) : String :=
  if isAbsPath f then f
  else if isAbsPath dir then dir ++ "/" ++ f
  else wf ++ "/" ++ dir ++ "/" ++ f

/-- The `compileCommands` index built by `CompileCommandsData`'s constructor
(lines 156-176) as an association list.  `parsed = none` models
`JSON.parse`/`readFileSync` throwing, which the constructor catches, leaving
the index empty; an empty `jsonPath` skips parsing entirely. -/
def compileCommandsOf (jsonPath : String)
    (parsed : Option (List IJsonCompileCommand)) (workspacefolder : String) :
    List (String × CompileCommand) :=
  if jsonPath = "" then []
  else
    match parsed with
    | none => []
    | some entries =>
      entries.map (fun e =>
        let dir := e.directory.getD workspacefolder
        let fname := if isAbsPath e.file then e.file else resolve3 workspacefolder dir e.file
        (fname, CompileCommand.ofEntry e dir))

/-- Expected log flags for a failure sequence once some path has been
recorded: the log line fires exactly when the path changed. -/
def expectedLogFlags : String → List String → List Bool
  | _, [] => []
  | prev, q :: qs => decide (prev ≠ q) :: expectedLogFlags q qs

/-!
## In-flight counter accounting (`iwyuRun`, lines 479-531)
-/

/-- Observable state for one file's analyzer invocations: the `running`
counter of its `IwyuData` and the number of issued-but-not-yet-completed
`exec` invocations (whose callbacks are queued by the JS event loop and
cannot run inside the synchronous body that issued them). -/
structure IwyuRunEnv where
  running : Nat
  pendingCallbacks : Nat
deriving DecidableEq

/-- The synchronous body of `iwyuRun` (lines 514-531): `running++`, then
`exec(...)` is issued (queuing an asynchronous completion callback and
returning immediately), then the `finally` block runs
`running = Math.max(0, running - 1)` — still inside the same synchronous
body, before any callback can fire. -/
def iwyuRunSyncBody (s : IwyuRunEnv) : IwyuRunEnv :=
  let s1 : IwyuRunEnv := { s with running := s.running + 1 }
  let s2 : IwyuRunEnv := { s1 with pendingCallbacks := s1.pendingCallbacks + 1 }
  { s2 with running := Nat.max 0 (s2.running - 1) }

/-- The completion callback of `exec` (lines 516-526): it parses the output
via `iwyuRunCallback` but never touches `running`. -/
def iwyuExecCallback (s : IwyuRunEnv) : IwyuRunEnv :=
  { s with pendingCallbacks := s.pendingCallbacks - 1 }

/-- The condition polled by `ConfigData.waitUntilIwyuFinished`
(lines 271-273). -/
def waitUntilIwyuFinishedCondition (s : IwyuRunEnv) : Bool := s.running == 0

/-!
## Diagnostics scanner (`Extension.iwyuDiagnosticsScan`, lines 631-762)

The scan is embedded as a pure function of the document's lines and of the
configuration values the source reads.  A diagnostic records its category
tag, line, column range and optional related location `(line, line length)`
(`addIncludeGuardRef`, lines 624-629).  Constructing a related location for
an invalid line — which happens when the source passes `includeGuardLine
= -1` to `doc.lineAt` — throws in the editor API, so the scan returns
`Except Unit`, erroring exactly where the source would throw.
-/

/-- The closed set of diagnostic category tags (lines 23-28). -/
inductive DiagKind where
  | unusedInclude
  | guardBadIfndef
  | guardBadDefine
  | guardBadEndif
  | guardMissingIfndef
  | guardMissingEndif
deriving DecidableEq

/-- One published diagnostic: category, line, column range (as produced by
`createDiagnostic`, line 586) and the optional related guard location. -/
structure Diag where
  kind : DiagKind
  line : Nat
  col : Int
  len : Int
  related : Option (Nat × Nat)
deriving DecidableEq

/-- Inputs of one `iwyuDiagnosticsScan` call: the live document's lines and
the configuration/cache values read at lines 633-640. -/
structure ScanCfg where
  doc : List String
  includesToRemove : List IncludeInfo
  scanMin : Nat
  scanMore : Nat
  expectedIncludeGuard : String
  headerMatch : Bool
  fullLineSquiggles : Bool

/-- Line 640: guard checking is on when the expected guard is non-empty and
the file name matched the header pattern. -/
def ScanCfg.checkIncludeGuard (cfg : ScanCfg) : Bool :=
  (cfg.expectedIncludeGuard != "") && cfg.headerMatch

/-- The loop's mutable locals (lines 635, 641-644). -/
structure ScanCore where
  scanMax : Nat
  includeGuardLine : Int
  pragmaOnceLine : Int
  includeStart : Int
  firstLineLength : Nat
deriving DecidableEq

/-- Initial loop state (`scanMax = scanMin`, the three line trackers at -1). -/
def initCore (scanMin : Nat) : ScanCore := ⟨scanMin, -1, -1, -1, 0⟩

/-- Capture 2 of `INC_GUARD_IFNDEF`, or `""` (source line 669). -/
def ifndefId (s : String) : String :=
  ((ifndefMatch s).map (fun m => m.2.1)).getD ""

/-- Capture 2 of `INC_GUARD_DEFINE`, or `""` (source line 684). -/
def defineId (s : String) : String :=
  ((defineMatch s).map (fun m => m.2.1)).getD ""

/-- Lines 677-681: when the line matches `PRAGMA_ONCE`, record it as both
the guard line and the pragma line (applied after the `#ifndef` check of the
same line, as in the source). -/
def pragmaStep (line : Nat) (text : String) (p1 : List Diag × ScanCore) :
    List Diag × ScanCore :=
  if pragmaMatch text then
    (p1.1, { p1.2 with includeGuardLine := (line : Int), pragmaOnceLine := (line : Int) })
  else p1

/-- Lines 668-682: while no guard line is recorded, check the line for an
`#ifndef` (recording it, and flagging a wrong identifier) and for a
pragma-once. -/
def guardRecordStep (cfg : ScanCfg) (line : Nat) (text : String) (core : ScanCore) :
    List Diag × ScanCore :=
  if core.includeGuardLine = -1 then
    pragmaStep line text
      (if ifndefId text ≠ "" then
        (if ifndefId text ≠ cfg.expectedIncludeGuard then
          [⟨.guardBadIfndef, line, 0, (text.length : Int), none⟩]
        else [],
          { core with includeGuardLine := (line : Int) })
      else ([], core))
  else ([], core)

/-- Lines 683-692: the line immediately after the recorded guard line must
carry the matching `#define`.  This check fires with `includeGuardLine = -1`
when line 0 holds no guard (`0 = -1 + 1`); building the related location
then passes line `-1` to the editor API, which throws — modeled by
`.error`. -/
def guardDefineStep (cfg : ScanCfg) (line : Nat) (text : String)
    (acc : List Diag × ScanCore) : Except Unit (List Diag × ScanCore) :=
  if acc.2.pragmaOnceLine = -1 ∧ (line : Int) = acc.2.includeGuardLine + 1 then
    if defineId text ≠ cfg.expectedIncludeGuard then
      if 0 ≤ acc.2.includeGuardLine ∧ acc.2.includeGuardLine < (cfg.doc.length : Int) then
        .ok (acc.1 ++ [⟨.guardBadDefine, line, 0, (text.length : Int),
          some (acc.2.includeGuardLine.toNat,
            (cfg.doc.getD acc.2.includeGuardLine.toNat "").length)⟩], acc.2)
      else .error ()
    else .ok acc
  else .ok acc

/-- The include-guard portion of the loop body (lines 667-693). -/
def scanGuardStep (cfg : ScanCfg) (line : Nat) (text : String) (core : ScanCore) :
    Except Unit (List Diag × ScanCore) :=
  if cfg.checkIncludeGuard then
    guardDefineStep cfg line text (guardRecordStep cfg line text core)
  else .ok ([], core)

/-- Line 698-700: remember the first include line (`includeStart`). -/
def markIncludeStart (line : Nat) (core : ScanCore) : ScanCore :=
  if core.includeStart = -1 then { core with includeStart := (line : Int) } else core

/-- Lines 702-704: an include found at or past `scanMin` pushes the window
out to `line + 1 + scanMore` when that is larger. -/
def extendWindow (cfg : ScanCfg) (line : Nat) (core : ScanCore) : ScanCore :=
  if line ≥ cfg.scanMin then
    { core with scanMax := Nat.max (line + 1 + cfg.scanMore) core.scanMax }
  else core

/-- Lines 705-728: look the include token up in the remove list and build
the unused-include diagnostic (full-line or token-anchored columns). -/
def unusedDiagFor (cfg : ScanCfg) (line : Nat) (text : String) (inc : String) :
    List Diag :=
  match cfg.includesToRemove.findIdx? (fun v => v.includeToken == inc) with
  | none => []
  | some idx =>
    if ((cfg.includesToRemove.get? idx).map (fun v => v.includeToken)).getD "" = "" then []
    else
      if 0 ≤ strIndexOf text (((cfg.includesToRemove.get? idx).map
          (fun v => v.includeToken)).getD "") then
        if cfg.fullLineSquiggles then
          [⟨.unusedInclude, line, 0, (text.length : Int), none⟩]
        else
          [⟨.unusedInclude, line, strIndexOf text "#",
            ((((cfg.includesToRemove.get? idx).map (fun v => v.includeToken)).getD
              "").length : Int) +
              strIndexOf text (((cfg.includesToRemove.get? idx).map
                (fun v => v.includeToken)).getD "") - strIndexOf text "#", none⟩]
      else []

/-- The unused-include portion of the loop body (lines 694-729). -/
def scanIncludeStep (cfg : ScanCfg) (line : Nat) (text : String) (core : ScanCore) :
    List Diag × ScanCore :=
  match includeTokenOf text with
  | none => ([], core)
  | some inc =>
    if cfg.includesToRemove.isEmpty then ([], markIncludeStart line core)
    else (unusedDiagFor cfg line text inc, extendWindow cfg line (markIncludeStart line core))

/-- Guard part followed by include part (the body after the minimum-window
handling). -/
def scanRest (cfg : ScanCfg) (line : Nat) (text : String) (core : ScanCore) :
    Except Unit (List Diag × ScanCore) :=
  match scanGuardStep cfg line text core with
  | .error e => .error e
  | .ok r =>
    .ok (r.1 ++ (scanIncludeStep cfg line text r.2).1, (scanIncludeStep cfg line text r.2).2)

/-- `scanMax++`: the window extensions of lines 652, 658 and 662. -/
def bumpWindow (core : ScanCore) : ScanCore :=
  { core with scanMax := core.scanMax + 1 }

/-- Lines 650-666: below `scanMin`, a blank line or a `//` comment line
extends the window and skips the rest of the body (`continue`); a line whose
first non-blank character is `#` extends the window but is still scanned. -/
def scanLineMin (cfg : ScanCfg) (line : Nat) (text : String) (core : ScanCore) :
    Except Unit (List Diag × ScanCore) :=
  if line < cfg.scanMin then
    if (text.data.dropWhile isWsChar).isEmpty then .ok ([], bumpWindow core)
    else if (text.data.dropWhile isWsChar).take 2 = ['/', '/'] then .ok ([], bumpWindow core)
    else
      scanRest cfg line text
        (if (text.data.dropWhile isWsChar).headD ' ' = '#' then bumpWindow core else core)
  else scanRest cfg line text core

/-- One iteration of the scan loop (lines 645-730): record the first line's
length (lines 647-649), then the minimum-window handling and the guard and
include checks. -/
def scanLine (cfg : ScanCfg) (line : Nat) (text : String) (core : ScanCore) :
    Except Unit (List Diag × ScanCore) :=
  scanLineMin cfg line text
    (if line = 0 then { core with firstLineLength := text.length } else core)

/-- The scan loop over the document's lines, stopping at `scanMax` (the
`for` loop of line 645); `diags` accumulates pushes in order. -/
def scanLoop (cfg : ScanCfg) :
    List String → Nat → ScanCore → List Diag → Except Unit (List Diag × ScanCore)
  | [], _, core, diags => .ok (diags, core)
  | text :: rest, line, core, diags =>
    if line < core.scanMax then
      match scanLine cfg line text core with
      | .error e => .error e
      | .ok r => scanLoop cfg rest (line + 1) r.2 (diags ++ r.1)
    else .ok (diags, core)

/-- The backward `#endif` search over the last 10 lines (lines 736-754):
first match from the bottom, never looking at line 0. -/
def backFindEndif (doc : List String) (lastLine : Nat) : Option (Nat × String) :=
  (List.range 10).findSome? (fun k =>
    let line := lastLine - k
    if 0 < line then (endifMatch (doc.getD line "")).map (fun g => (line, g))
    else none)

/-- The post-loop guard handling (lines 731-760): missing `#ifndef` at line 0
when no guard line was recorded, otherwise the backward `#endif` check. -/
def scanPost (cfg : ScanCfg) (diags : List Diag) (core : ScanCore) :
    Except Unit (List Diag) :=
  if cfg.checkIncludeGuard then
    if core.includeGuardLine = -1 then
      .ok (diags ++ [⟨.guardMissingIfndef, 0, 0, (core.firstLineLength : Int), none⟩])
    else
      match backFindEndif cfg.doc (cfg.doc.length - 1) with
      | some lg =>
        if lg.2 ≠ cfg.expectedIncludeGuard then
          if 0 ≤ core.includeGuardLine ∧ core.includeGuardLine < (cfg.doc.length : Int) then
            .ok (diags ++ [⟨.guardBadEndif, lg.1, 0, ((cfg.doc.getD lg.1 "").length : Int),
              some (core.includeGuardLine.toNat,
                (cfg.doc.getD core.includeGuardLine.toNat "").length)⟩])
          else .error ()
        else .ok diags
      | none =>
        .ok (diags ++ [⟨.guardMissingEndif, cfg.doc.length - 1, 0,
          ((cfg.doc.getD (cfg.doc.length - 1) "").length : Int), none⟩])
  else .ok diags

/-- `iwyuDiagnosticsScan` with the final loop state exposed. -/
def scanWithState (cfg : ScanCfg) : Except Unit (List Diag × ScanCore) :=
  match scanLoop cfg cfg.doc 0 (initCore cfg.scanMin) [] with
  | .error e => .error e
  | .ok r =>
    match scanPost cfg r.1 r.2 with
    | .error e => .error e
    | .ok diags2 => .ok (diags2, r.2)

/-- `Extension.iwyuDiagnosticsScan` (lines 631-762): the ordered list of
diagnostics published for the document, or an error where the source would
throw. -/
def iwyuDiagnosticsScan (cfg : ScanCfg) : Except Unit (List Diag) :=
  (scanWithState cfg).map (fun r => r.1)

/-!
## Support lemmas about the matchers and the scan loop
-/

/-- A non-empty identifier string: the full-match form of
`[_a-zA-Z][_a-zA-Z0-9]*`. -/
def isIdentString (s : String) : Bool :=
  match s.data with
  | [] => false
  | c :: cs => isIdentStartChar c && cs.all isIdentChar

/-- `IwyuQuickFix.fixIncludeGuard` (lines 875-908) specialized to the
missing-`#ifndef` diagnostic (line 871: `missing = true`, `type = "#ifndef"`,
`separator = " "`, `addDefine = true`), expressed on the document's list of
lines (the two text edits, joined by the document's eol, become list
operations): an `#endif  // E` line and a final empty line are appended at
end-of-file; if the diagnostic's line 0 already matches `INC_GUARD_IFNDEF`
its guard identifier is replaced and the `#define` goes on a new second line,
otherwise `#ifndef E` and `#define E` are prepended. -/
def fixMissingIfndef (doc : List String) (expected : String) : List String :=
  match ifndefMatch (doc.headD "") with
  | some g =>
    (g.1 ++ " " ++ expected ++ g.2.2) :: ("#define " ++ expected) ::
      (doc.tail ++ ["#endif  // " ++ expected, ""])
  | none =>
    ("#ifndef " ++ expected) :: ("#define " ++ expected) ::
      (doc ++ ["#endif  // " ++ expected, ""])

/-!
## Theorems
-/

lemma pclRun_plain (u : List Char) (rest acc : List Char)
    (hu : ∀ c ∈ u, PlainChar c) :
    pclRun .norm (u ++ rest) acc = pclRun .norm rest (u.reverse ++ acc) := by
  induction u generalizing acc with
  | nil => simp
  | cons c u ih =>
    obtain ⟨h1, h2, h3, h4⟩ := hu c (by simp)
    rw [List.cons_append]
    simp only [pclRun, if_neg h1, if_neg h2, if_neg h3, if_neg h4]
    rw [ih _ (fun d hd => hu d (by simp [hd]))]
    simp

lemma pclRun_single_unclosed (v : List Char) (acc : List Char) (hacc : acc ≠ [])
    (hv : qChar ∉ v) :
    pclRun .single v acc = [String.mk (acc.reverse ++ v)] := by
  induction v generalizing acc with
  | nil => simp [pclRun, hacc]
  | cons c v ih =>
    have hc : c ≠ qChar := fun h => hv (h ▸ List.mem_cons_self c v)
    simp only [pclRun, if_neg hc]
    rw [ih _ (by simp) (fun h => hv (List.mem_cons_of_mem _ h))]
    simp

lemma pclRun_double_unclosed (v : List Char) (acc : List Char) (hacc : acc ≠ [])
    (hv : dqChar ∉ v) :
    pclRun .double v acc = [String.mk (acc.reverse ++ v)] := by
  induction v generalizing acc with
  | nil => simp [pclRun, hacc]
  | cons c v ih =>
    have hc : c ≠ dqChar := fun h => hv (h ▸ List.mem_cons_self c v)
    simp only [pclRun, if_neg hc]
    rw [ih _ (by simp) (fun h => hv (List.mem_cons_of_mem _ h))]
    simp

/-- C4: the five specified tokenizer equations. -/
theorem c4_tokenizer_equations :
    parseCommandLine "" = [] ∧
    parseCommandLine "a a" = ["a", "a"] ∧
    parseCommandLine " b b " = ["b", "b"] ∧
    parseCommandLine "a 'a a'" = ["a", "'a a'"] ∧
    parseCommandLine "a\\ \\ a" = ["a\\ \\ a"] := by
  refine ⟨rfl, ?_, ?_, ?_, ?_⟩ <;> decide

/-- C10: the tokenizer is total by construction (it is a terminating Lean
function on every input); an unclosed single or double quote extends its
quoted region to the end of the string, so the final token keeps the opening
quote and every remaining character, spaces included; a backslash as the last
character is retained and escapes nothing. -/
theorem c10_tokenizer_totality_edge_cases :
    (∀ u v : List Char, (∀ c ∈ u, PlainChar c) → qChar ∉ v →
      parseCommandLine (String.mk (u ++ qChar :: v)) = [String.mk (u ++ qChar :: v)]) ∧
    (∀ u v : List Char, (∀ c ∈ u, PlainChar c) → dqChar ∉ v →
      parseCommandLine (String.mk (u ++ dqChar :: v)) = [String.mk (u ++ dqChar :: v)]) ∧
    (∀ u : List Char, (∀ c ∈ u, PlainChar c) →
      parseCommandLine (String.mk (u ++ [bsChar])) = [String.mk (u ++ [bsChar])]) := by
  refine ⟨?_, ?_, ?_⟩
  · intro u v hu hv
    show pclRun .norm (u ++ qChar :: v) [] = _
    rw [pclRun_plain u _ _ hu]
    have h2 : qChar ≠ ' ' := by decide
    simp only [pclRun, if_neg h2, if_pos rfl]
    rw [pclRun_single_unclosed v _ (by simp) hv]
    simp
  · intro u v hu hv
    show pclRun .norm (u ++ dqChar :: v) [] = _
    rw [pclRun_plain u _ _ hu]
    have h2 : dqChar ≠ ' ' := by decide
    have h3 : dqChar ≠ qChar := by decide
    simp only [pclRun, if_neg h2, if_neg h3, if_pos rfl]
    rw [pclRun_double_unclosed v _ (by simp) hv]
    simp
  · intro u hu
    show pclRun .norm (u ++ [bsChar]) [] = _
    rw [pclRun_plain u _ _ hu]
    have h2 : bsChar ≠ ' ' := by decide
    have h3 : bsChar ≠ qChar := by decide
    have h4 : bsChar ≠ dqChar := by decide
    simp only [pclRun, if_neg h2, if_neg h3, if_neg h4, if_pos rfl]
    simp [pclRun]

/-- Witness for C10 at concrete inputs: an unclosed `'`, an unclosed `"`, and
a trailing backslash. -/
theorem c10_witness :
    ((∀ c ∈ ['a'], PlainChar c) ∧ qChar ∉ ['b', ' ', 'c'] ∧
      parseCommandLine (String.mk (['a'] ++ qChar :: ['b', ' ', 'c'])) =
        [String.mk (['a'] ++ qChar :: ['b', ' ', 'c'])]) ∧
    ((∀ c ∈ ['x'], PlainChar c) ∧ dqChar ∉ ['y', ' ', 'z'] ∧
      parseCommandLine (String.mk (['x'] ++ dqChar :: ['y', ' ', 'z'])) =
        [String.mk (['x'] ++ dqChar :: ['y', ' ', 'z'])]) ∧
    ((∀ c ∈ ['a'], PlainChar c) ∧
      parseCommandLine (String.mk (['a'] ++ [bsChar])) = [String.mk (['a'] ++ [bsChar])]) := by
  refine ⟨⟨by decide, by decide, ?_⟩, ⟨by decide, by decide, ?_⟩, ⟨by decide, ?_⟩⟩
  · exact c10_tokenizer_totality_edge_cases.1 ['a'] ['b', ' ', 'c'] (by decide) (by decide)
  · exact c10_tokenizer_totality_edge_cases.2.1 ['x'] ['y', ' ', 'z'] (by decide) (by decide)
  · exact c10_tokenizer_totality_edge_cases.2.2 ['a'] (by decide)

/-- C6: parsing the same report text twice yields exactly the lists of a
single parse — the three lists are recomputed from the text alone and never
accumulate entries across calls. -/
theorem c6_report_parser_idempotent (d : IwyuData) (output fileName : String)
    (enableDiagnostics : Bool) (n1 n2 : Nat) :
    ((d.update output fileName enableDiagnostics n1).update output fileName
        enableDiagnostics n2).includesToAdd =
      (d.update output fileName enableDiagnostics n1).includesToAdd ∧
    ((d.update output fileName enableDiagnostics n1).update output fileName
        enableDiagnostics n2).includesToRemove =
      (d.update output fileName enableDiagnostics n1).includesToRemove ∧
    ((d.update output fileName enableDiagnostics n1).update output fileName
        enableDiagnostics n2).includesList =
      (d.update output fileName enableDiagnostics n1).includesList :=
  ⟨rfl, rfl, rfl⟩

/-- C7: sanitizing `path/foo.h` and substituting it into the template gives
`PATH_FOO_H_` for `${FILE}_` and `path_foo_h_guard` for `${file}_guard`;
an empty template disables the feature and yields the empty string for every
file. -/
theorem c7_guard_derivation :
    getIncludeGuard "${FILE}_" "path/foo.h" "" = "PATH_FOO_H_" ∧
    getIncludeGuard "${file}_guard" "path/foo.h" "" = "path_foo_h_guard" ∧
    ∀ fileName directory : String, getIncludeGuard "" fileName directory = "" := by
  refine ⟨by decide, by decide, fun f d => rfl⟩

lemma runBadPaths_shown (ps : List String) (st : CcErrorState)
    (h : st.compileCommandsErrorShown = true) :
    ((runBadPaths st ps).2.map (fun e => e.2)) = List.replicate ps.length false := by
  induction ps generalizing st with
  | nil => simp [runBadPaths]
  | cons p ps ih =>
    simp only [runBadPaths, List.map_cons, List.length_cons, List.replicate_succ]
    have h1 : (badCompileCommandsSetting st p).2.2 = false := by
      simp [badCompileCommandsSetting, h]
    have h2 := ih (badCompileCommandsSetting st p).1 (by simp [badCompileCommandsSetting])
    rw [h1, h2]

lemma runBadPaths_logs (ps : List String) (prev : String) (b : Bool) :
    ((runBadPaths ⟨b, some prev⟩ ps).2.map (fun e => e.1)) = expectedLogFlags prev ps := by
  induction ps generalizing prev b with
  | nil => simp [runBadPaths, expectedLogFlags]
  | cons q qs ih =>
    simp only [runBadPaths, List.map_cons, expectedLogFlags]
    have h1 : (badCompileCommandsSetting ⟨b, some prev⟩ q).2.1 = decide (prev ≠ q) := by
      simp [badCompileCommandsSetting]
    have h2 : (badCompileCommandsSetting ⟨b, some prev⟩ q).1 = ⟨true, some q⟩ := by
      by_cases hq : prev = q
      · subst hq
        simp [badCompileCommandsSetting]
      · simp [badCompileCommandsSetting, hq]
    rw [h1, h2, ih q true]

/-- C9 counterexample: two successive failures with distinct bad paths; the
pop-up (second component) is raised for the first failure only — the second
distinct path produces no user-visible message, contradicting "raised exactly
once per distinct bad path". -/
theorem c9_counterexample :
    (runBadPaths ⟨false, none⟩ ["pathA", "pathB"]).2 =
      [(true, true), (true, false)] := by decide

/-- C9 (amended): over any failure sequence the user-visible message is
raised exactly once — by the first failing lookup — while the deduplicated
log line fires for the first failure and thereafter exactly when the bad path
changes; and whenever the database cannot be found (empty resolved path) or
cannot be parsed, the built index is empty. -/
theorem c9_error_reporting (p : String) (ps : List String) :
    ((runBadPaths ⟨false, none⟩ (p :: ps)).2.map (fun e => e.2) =
      true :: List.replicate ps.length false) ∧
    ((runBadPaths ⟨false, none⟩ (p :: ps)).2.map (fun e => e.1) =
      true :: expectedLogFlags p ps) ∧
    (∀ parsed wf, compileCommandsOf "" parsed wf = []) ∧
    (∀ path wf, compileCommandsOf path none wf = []) := by
  have hfirst : badCompileCommandsSetting ⟨false, none⟩ p = (⟨true, some p⟩, true, true) := by
    simp [badCompileCommandsSetting]
  refine ⟨?_, ?_, ?_, ?_⟩
  · simp only [runBadPaths, hfirst, List.map_cons]
    rw [runBadPaths_shown ps _ rfl]
  · simp only [runBadPaths, hfirst, List.map_cons]
    rw [runBadPaths_logs ps p true]
  · intro parsed wf
    simp [compileCommandsOf]
  · intro path wf
    by_cases h : path = "" <;> simp [compileCommandsOf, h]

/-- C3 (code bug): issuing one analyzer invocation from the idle state leaves
`running = 0` while the invocation is still outstanding (one queued
callback), because the `finally` block decrements immediately after the
asynchronous `exec` returns — so the counter does not equal the number of
outstanding invocations when one is outstanding, and the poll condition of
`waitUntilIwyuFinished` is already true, letting a diagnostics pass read the
state while the invocation is in flight.  The completion callback never
restores the count. -/
theorem c3_inflight_counter_bug :
    (iwyuRunSyncBody ⟨0, 0⟩).running = 0 ∧
    (iwyuRunSyncBody ⟨0, 0⟩).pendingCallbacks = 1 ∧
    (iwyuRunSyncBody ⟨0, 0⟩).running ≠ (iwyuRunSyncBody ⟨0, 0⟩).pendingCallbacks ∧
    waitUntilIwyuFinishedCondition (iwyuRunSyncBody ⟨0, 0⟩) = true ∧
    (iwyuExecCallback (iwyuRunSyncBody ⟨0, 0⟩)).running = 0 := by
  refine ⟨rfl, rfl, by decide, rfl, rfl⟩

lemma identString_shape (E : String) (hE : isIdentString E = true) :
    ∃ c cs, E.data = c :: cs ∧ isIdentStartChar c = true ∧ cs.all isIdentChar = true := by
  cases hd : E.data with
  | nil => rw [isIdentString, hd] at hE; cases hE
  | cons c cs =>
    rw [isIdentString, hd] at hE
    have hE2 : (isIdentStartChar c && cs.all isIdentChar) = true := hE
    refine ⟨c, cs, rfl, ?_, ?_⟩
    · cases h1 : isIdentStartChar c
      · rw [h1, Bool.false_and] at hE2; cases hE2
      · rfl
    · cases h2 : cs.all isIdentChar
      · rw [h2, Bool.and_false] at hE2; cases hE2
      · rfl

lemma not_ws_of_identStart {c : Char} (h : isIdentStartChar c = true) :
    isWsChar c = false := by
  cases hw : isWsChar c
  · rfl
  · exfalso
    simp only [isWsChar, Bool.or_eq_true, decide_eq_true_eq] at hw
    rcases hw with ((((rfl | rfl) | rfl) | rfl) | rfl) <;> exact absurd h (by decide)

lemma isPrefixOf_cons_cons (a b : Char) (as bs : List Char) :
    (a :: as).isPrefixOf (b :: bs) = (a == b && as.isPrefixOf bs) := rfl

lemma afterHash2_shape {cs : List Char} {x : List Char × List Char}
    (h : afterHash2 cs = some x) :
    ∃ rest, cs.dropWhile isWsChar = '#' :: rest ∧
      x.2 = rest.dropWhile isWsChar := by
  unfold afterHash2 at h
  split at h
  · cases h
  · rename_i c rest heq
    split at h
    · rename_i hc
      cases h
      subst hc
      exact ⟨rest, heq, rfl⟩
    · cases h

lemma expectKw_some_shape {kw cs r : List Char} (h : expectKw kw cs = some r) :
    kw.isPrefixOf cs = true := by
  unfold expectKw at h
  split at h
  · assumption
  · cases h

lemma pragma_shape {t : String} (h : pragmaMatch t = true) :
    ∃ r1, afterHash t.data = some r1 ∧ "pragma".data.isPrefixOf r1 = true := by
  unfold pragmaMatch at h
  split at h
  · cases h
  · rename_i r1 heq
    refine ⟨r1, heq, ?_⟩
    split at h
    · cases h
    · rename_i r2 hk
      exact expectKw_some_shape hk

/-- A line matching `PRAGMA_ONCE` cannot match `INC_GUARD_IFNDEF`: after the
shared `\s*#\s*` prefix one requires `pragma` and the other `ifndef`. -/
lemma ifndefMatch_eq_none_of_pragma {t : String} (h : pragmaMatch t = true) :
    ifndefMatch t = none := by
  obtain ⟨r1, ha, hpre⟩ := pragma_shape h
  obtain ⟨tl, rfl⟩ : ∃ tl, r1 = 'p' :: tl := by
    cases r1 with
    | nil => exact absurd hpre (by decide)
    | cons c tl =>
      rw [show ("pragma".data : List Char) = 'p' :: "ragma".data from rfl,
        isPrefixOf_cons_cons] at hpre
      have hb : ('p' == c) = true := by
        cases hb2 : ('p' == c)
        · rw [hb2, Bool.false_and] at hpre; cases hpre
        · rfl
      exact ⟨tl, by rw [← eq_of_beq hb]⟩
  unfold afterHash at ha
  unfold ifndefMatch guardHeadMatch
  cases hy : afterHash2 t.data with
  | none => exact absurd ha (by simp [hy])
  | some y =>
    obtain ⟨g0, r2⟩ := y
    rw [hy, Option.map_some'] at ha
    have hr2 : r2 = 'p' :: tl := Option.some.inj ha
    subst hr2
    have hnone : expectKw "ifndef".data ('p' :: tl) = none := by
      unfold expectKw
      rw [show ("ifndef".data : List Char) = 'i' :: "fndef".data from rfl,
        isPrefixOf_cons_cons]
      simp
    simp only [hy, hnone]

lemma pragmaMatch_eq_false_of_ifndef {t : String} {m : String × String × String}
    (h : ifndefMatch t = some m) : pragmaMatch t = false := by
  cases hp : pragmaMatch t
  · rfl
  · rw [ifndefMatch_eq_none_of_pragma hp] at h; cases h

lemma markIncludeStart_facts (line : Nat) (core : ScanCore) :
    (markIncludeStart line core).includeGuardLine = core.includeGuardLine ∧
    (markIncludeStart line core).pragmaOnceLine = core.pragmaOnceLine ∧
    (markIncludeStart line core).scanMax = core.scanMax := by
  unfold markIncludeStart
  split <;> exact ⟨rfl, rfl, rfl⟩

lemma extendWindow_facts (cfg : ScanCfg) (line : Nat) (core : ScanCore) :
    (extendWindow cfg line core).includeGuardLine = core.includeGuardLine ∧
    (extendWindow cfg line core).pragmaOnceLine = core.pragmaOnceLine ∧
    core.scanMax ≤ (extendWindow cfg line core).scanMax := by
  unfold extendWindow
  split
  · exact ⟨rfl, rfl, Nat.le_max_right _ _⟩
  · exact ⟨rfl, rfl, Nat.le_refl _⟩

lemma unusedDiagFor_kinds (cfg : ScanCfg) (line : Nat) (text : String) (inc : String) :
    ∀ d ∈ unusedDiagFor cfg line text inc, d.kind = DiagKind.unusedInclude := by
  unfold unusedDiagFor
  repeat' split
  all_goals simp_all

lemma scanIncludeStep_facts (cfg : ScanCfg) (line : Nat) (text : String) (core : ScanCore) :
    (scanIncludeStep cfg line text core).2.includeGuardLine = core.includeGuardLine ∧
    (scanIncludeStep cfg line text core).2.pragmaOnceLine = core.pragmaOnceLine ∧
    core.scanMax ≤ (scanIncludeStep cfg line text core).2.scanMax ∧
    ∀ d ∈ (scanIncludeStep cfg line text core).1, d.kind = DiagKind.unusedInclude := by
  unfold scanIncludeStep
  split
  · exact ⟨rfl, rfl, Nat.le_refl _, by simp⟩
  · rename_i inc _
    split
    · refine ⟨(markIncludeStart_facts line core).1, (markIncludeStart_facts line core).2.1,
        le_of_eq (markIncludeStart_facts line core).2.2.symm, by simp⟩
    · refine ⟨?_, ?_, ?_, ?_⟩
      · rw [(extendWindow_facts cfg line _).1, (markIncludeStart_facts line core).1]
      · rw [(extendWindow_facts cfg line _).2.1, (markIncludeStart_facts line core).2.1]
      · calc core.scanMax = (markIncludeStart line core).scanMax :=
              (markIncludeStart_facts line core).2.2.symm
          _ ≤ _ := (extendWindow_facts cfg line _).2.2
      · exact unusedDiagFor_kinds cfg line text inc

lemma guardDefineStep_ok_facts (cfg : ScanCfg) (line : Nat) (text : String)
    (acc r : List Diag × ScanCore) (h : guardDefineStep cfg line text acc = .ok r) :
    r.2 = acc.2 ∧ ∀ d ∈ r.1, d ∈ acc.1 ∨ d.kind = DiagKind.guardBadDefine := by
  unfold guardDefineStep at h
  split at h
  · split at h
    · split at h
      · cases h
        refine ⟨rfl, fun d hd => ?_⟩
        rcases List.mem_append.mp hd with hd | hd
        · exact Or.inl hd
        · simp at hd
          simp [hd]
      · cases h
    · cases h
      exact ⟨rfl, fun d hd => Or.inl hd⟩
  · cases h
    exact ⟨rfl, fun d hd => Or.inl hd⟩

lemma guardDefineStep_skip_pragma (cfg : ScanCfg) (line : Nat) (text : String)
    (acc : List Diag × ScanCore) (hpol : ¬ acc.2.pragmaOnceLine = -1) :
    guardDefineStep cfg line text acc = .ok acc := by
  unfold guardDefineStep
  rw [if_neg (by intro hc; exact hpol hc.1)]

lemma guardDefineStep_skip_line (cfg : ScanCfg) (line : Nat) (text : String)
    (acc : List Diag × ScanCore) (hl : ¬ (line : Int) = acc.2.includeGuardLine + 1) :
    guardDefineStep cfg line text acc = .ok acc := by
  unfold guardDefineStep
  rw [if_neg (by intro hc; exact hl hc.2)]

lemma guardDefineStep_clean_ok (cfg : ScanCfg) (line : Nat) (text : String)
    (acc r : List Diag × ScanCore) (higl : acc.2.includeGuardLine = -1)
    (h : guardDefineStep cfg line text acc = .ok r) : r = acc := by
  unfold guardDefineStep at h
  split at h
  · split at h
    · split at h
      · rename_i hval
        exact absurd (higl ▸ hval.1) (by decide)
      · cases h
    · cases h; rfl
  · cases h; rfl

lemma pragmaStep_no (line : Nat) (text : String) (p1 : List Diag × ScanCore)
    (hpr : pragmaMatch text = false) : pragmaStep line text p1 = p1 := by
  unfold pragmaStep
  rw [hpr]
  simp

lemma pragmaStep_yes (line : Nat) (text : String) (p1 : List Diag × ScanCore)
    (hpr : pragmaMatch text = true) :
    pragmaStep line text p1 =
      (p1.1, { p1.2 with includeGuardLine := (line : Int), pragmaOnceLine := (line : Int) }) := by
  unfold pragmaStep
  rw [hpr]
  simp

lemma identSpan_some_cons {cs : List Char} {x : List Char × List Char}
    (h : identSpan cs = some x) : ∃ c l, x.1 = c :: l := by
  unfold identSpan at h
  split at h
  · cases h
  · split at h
    · cases h
      exact ⟨_, _, rfl⟩
    · cases h

lemma guardHeadMatch_id_ne {kw : List Char} {s : String} {m : String × String × String}
    (h : guardHeadMatch kw s = some m) : m.2.1 ≠ "" := by
  unfold guardHeadMatch at h
  split at h
  · cases h
  · split at h
    · cases h
    · split at h
      · cases h
      · split at h
        · cases h
        · rename_i x hspan
          split at h
          · cases h
          · cases h
            obtain ⟨c, l, hx⟩ := identSpan_some_cons hspan
            simp only at hx
            simp [String.ext_iff, hx]

lemma guardRecordStep_igl_set (cfg : ScanCfg) (line : Nat) (text : String)
    (core : ScanCore) (higl : ¬ core.includeGuardLine = -1) :
    guardRecordStep cfg line text core = ([], core) := by
  unfold guardRecordStep
  rw [if_neg higl]

lemma guardRecordStep_clean_nomatch (cfg : ScanCfg) (line : Nat) (text : String)
    (core : ScanCore) (higl : core.includeGuardLine = -1)
    (hif : ifndefMatch text = none) (hpr : pragmaMatch text = false) :
    guardRecordStep cfg line text core = ([], core) := by
  have hg : ifndefId text = "" := by rw [ifndefId, hif]; rfl
  unfold guardRecordStep
  rw [if_pos higl, hg, pragmaStep_no line text _ hpr]
  simp

lemma guardRecordStep_clean_pragma (cfg : ScanCfg) (line : Nat) (text : String)
    (core : ScanCore) (higl : core.includeGuardLine = -1) (hpr : pragmaMatch text = true) :
    guardRecordStep cfg line text core =
      ([], { core with includeGuardLine := (line : Int), pragmaOnceLine := (line : Int) }) := by
  have hif := ifndefMatch_eq_none_of_pragma hpr
  have hg : ifndefId text = "" := by rw [ifndefId, hif]; rfl
  unfold guardRecordStep
  rw [if_pos higl, hg, pragmaStep_yes line text _ hpr]
  simp

lemma guardRecordStep_clean_ifndef (cfg : ScanCfg) (line : Nat) (text : String)
    (core : ScanCore) (m : String × String × String)
    (higl : core.includeGuardLine = -1) (hif : ifndefMatch text = some m) :
    (guardRecordStep cfg line text core).2 = { core with includeGuardLine := (line : Int) } ∧
    ∀ d ∈ (guardRecordStep cfg line text core).1, d.kind = DiagKind.guardBadIfndef := by
  have hpr := pragmaMatch_eq_false_of_ifndef hif
  have hg : ifndefId text = m.2.1 := by rw [ifndefId, hif]; rfl
  have hne : m.2.1 ≠ "" := guardHeadMatch_id_ne hif
  unfold guardRecordStep
  rw [if_pos higl, hg, pragmaStep_no line text _ hpr, if_pos hne]
  split <;> simp

lemma guardRecordStep_transition (cfg : ScanCfg) (line : Nat) (text : String)
    (core : ScanCore) :
    ((guardRecordStep cfg line text core).2 = core ∨
      (guardRecordStep cfg line text core).2 = { core with includeGuardLine := (line : Int) } ∨
      (guardRecordStep cfg line text core).2 =
        { core with includeGuardLine := (line : Int), pragmaOnceLine := (line : Int) }) ∧
    ∀ d ∈ (guardRecordStep cfg line text core).1,
      d.kind = DiagKind.guardBadIfndef := by
  unfold guardRecordStep pragmaStep
  repeat' split
  all_goals simp_all

lemma scanGuardStep_nocheck (cfg : ScanCfg) (line : Nat) (text : String)
    (core : ScanCore) (hcheck : cfg.checkIncludeGuard = false) :
    scanGuardStep cfg line text core = .ok ([], core) := by
  unfold scanGuardStep
  rw [hcheck]
  simp

/-- Structural facts about one guard step: the state is unchanged, or the
guard line is recorded at the current line (with or without the pragma
line), and only bad-ifndef/bad-define diagnostics can be pushed. -/
lemma scanGuardStep_transition (cfg : ScanCfg) (line : Nat) (text : String)
    (core : ScanCore) (r : List Diag × ScanCore)
    (h : scanGuardStep cfg line text core = .ok r) :
    (r.2 = core ∨ r.2 = { core with includeGuardLine := (line : Int) } ∨
      r.2 = { core with includeGuardLine := (line : Int), pragmaOnceLine := (line : Int) }) ∧
    ∀ d ∈ r.1, d.kind = DiagKind.guardBadIfndef ∨ d.kind = DiagKind.guardBadDefine := by
  unfold scanGuardStep at h
  split at h
  · obtain ⟨h2, hk⟩ := guardDefineStep_ok_facts cfg line text _ r h
    obtain ⟨ht, hrk⟩ := guardRecordStep_transition cfg line text core
    refine ⟨h2 ▸ ht, fun d hd => ?_⟩
    rcases hk d hd with hmem | hdk
    · exact Or.inl (hrk d hmem)
    · exact Or.inr hdk
  · cases h
    exact ⟨Or.inl rfl, by simp⟩

lemma scanGuardStep_igl_set (cfg : ScanCfg) (line : Nat) (text : String)
    (core : ScanCore) (r : List Diag × ScanCore)
    (higl : ¬ core.includeGuardLine = -1)
    (h : scanGuardStep cfg line text core = .ok r) :
    r.2 = core ∧
    (∀ d ∈ r.1, d.kind = DiagKind.guardBadDefine) ∧
    (¬ core.pragmaOnceLine = -1 → r.1 = []) ∧
    (¬ (line : Int) = core.includeGuardLine + 1 → r.1 = []) := by
  unfold scanGuardStep at h
  split at h
  · rw [guardRecordStep_igl_set cfg line text core higl] at h
    obtain ⟨h2, hk⟩ := guardDefineStep_ok_facts cfg line text _ r h
    refine ⟨h2, fun d hd => ?_, fun hpol => ?_, fun hl => ?_⟩
    · rcases hk d hd with hmem | hdk
      · simp at hmem
      · exact hdk
    · rw [guardDefineStep_skip_pragma cfg line text _ hpol] at h
      cases h; rfl
    · rw [guardDefineStep_skip_line cfg line text _ hl] at h
      cases h; rfl
  · cases h
    exact ⟨rfl, by simp, fun _ => rfl, fun _ => rfl⟩

lemma scanGuardStep_clean_nomatch (cfg : ScanCfg) (line : Nat) (text : String)
    (core : ScanCore) (r : List Diag × ScanCore)
    (higl : core.includeGuardLine = -1)
    (hif : ifndefMatch text = none) (hpr : pragmaMatch text = false)
    (h : scanGuardStep cfg line text core = .ok r) :
    r = ([], core) := by
  unfold scanGuardStep at h
  split at h
  · rw [guardRecordStep_clean_nomatch cfg line text core higl hif hpr] at h
    exact guardDefineStep_clean_ok cfg line text _ r higl h
  · cases h; rfl

lemma scanGuardStep_clean_pragma (cfg : ScanCfg) (line : Nat) (text : String)
    (core : ScanCore) (r : List Diag × ScanCore)
    (higl : core.includeGuardLine = -1) (hpr : pragmaMatch text = true)
    (hcheck : cfg.checkIncludeGuard = true)
    (h : scanGuardStep cfg line text core = .ok r) :
    r = ([], { core with includeGuardLine := (line : Int), pragmaOnceLine := (line : Int) }) := by
  unfold scanGuardStep at h
  rw [hcheck, if_pos rfl, guardRecordStep_clean_pragma cfg line text core higl hpr,
    guardDefineStep_skip_pragma cfg line text _ (by simp)] at h
  cases h; rfl

lemma scanGuardStep_clean_ifndef (cfg : ScanCfg) (line : Nat) (text : String)
    (core : ScanCore) (r : List Diag × ScanCore) (m : String × String × String)
    (higl : core.includeGuardLine = -1)
    (hif : ifndefMatch text = some m)
    (hcheck : cfg.checkIncludeGuard = true)
    (h : scanGuardStep cfg line text core = .ok r) :
    r.2 = { core with includeGuardLine := (line : Int) } ∧
    r.2.pragmaOnceLine = core.pragmaOnceLine ∧
    ∀ d ∈ r.1, d.kind = DiagKind.guardBadIfndef := by
  obtain ⟨hrec2, hreck⟩ := guardRecordStep_clean_ifndef cfg line text core m higl hif
  unfold scanGuardStep at h
  rw [hcheck, if_pos rfl,
    guardDefineStep_skip_line cfg line text _ (by rw [hrec2]; simp)] at h
  cases h
  exact ⟨hrec2, by rw [hrec2], hreck⟩

/-- Decomposition of one successful loop iteration: either an early
`continue` (blank or comment line) that only bumps the window, or the guard
and include steps run on a state whose guard trackers agree with the input's. -/
lemma scanLine_ok_decomp (cfg : ScanCfg) (line : Nat) (text : String)
    (core : ScanCore) (r : List Diag × ScanCore)
    (h : scanLine cfg line text core = .ok r) :
    (((text.data.dropWhile isWsChar).isEmpty = true ∨
        (text.data.dropWhile isWsChar).take 2 = ['/', '/']) ∧
      r.1 = [] ∧ r.2.includeGuardLine = core.includeGuardLine ∧
      r.2.pragmaOnceLine = core.pragmaOnceLine) ∨
    (∃ core1 rg, core1.includeGuardLine = core.includeGuardLine ∧
      core1.pragmaOnceLine = core.pragmaOnceLine ∧
      scanGuardStep cfg line text core1 = .ok rg ∧
      r = (rg.1 ++ (scanIncludeStep cfg line text rg.2).1,
        (scanIncludeStep cfg line text rg.2).2)) := by
  have hfl : ∀ core2 : ScanCore,
      (if line = 0 then { core2 with firstLineLength := text.length } else core2).includeGuardLine
        = core2.includeGuardLine ∧
      (if line = 0 then { core2 with firstLineLength := text.length } else core2).pragmaOnceLine
        = core2.pragmaOnceLine := by
    intro core2
    split <;> exact ⟨rfl, rfl⟩
  have hscanRest : ∀ (core1 : ScanCore),
      core1.includeGuardLine = core.includeGuardLine →
      core1.pragmaOnceLine = core.pragmaOnceLine →
      scanRest cfg line text core1 = .ok r →
      (∃ core1 rg, core1.includeGuardLine = core.includeGuardLine ∧
        core1.pragmaOnceLine = core.pragmaOnceLine ∧
        scanGuardStep cfg line text core1 = .ok rg ∧
        r = (rg.1 ++ (scanIncludeStep cfg line text rg.2).1,
          (scanIncludeStep cfg line text rg.2).2)) := by
    intro core1 h1 h2 hr
    unfold scanRest at hr
    split at hr
    · cases hr
    · rename_i rg hg
      cases hr
      exact ⟨core1, rg, h1, h2, hg, rfl⟩
  unfold scanLine scanLineMin at h
  split at h
  · split at h
    · rename_i hblank
      cases h
      left
      exact ⟨Or.inl hblank, rfl, (hfl core).1, (hfl core).2⟩
    · split at h
      · rename_i hcmt
        cases h
        left
        exact ⟨Or.inr hcmt, rfl, (hfl core).1, (hfl core).2⟩
      · right
        refine hscanRest _ ?_ ?_ h <;>
          (split <;> simp [bumpWindow, (hfl core).1, (hfl core).2])
  · right
    exact hscanRest _ (hfl core).1 (hfl core).2 h

lemma scanRest_of_guard_ok (cfg : ScanCfg) (line : Nat) (text : String)
    (c : ScanCore) (c2 : ScanCore) (ds : List Diag)
    (hg : scanGuardStep cfg line text c = .ok (ds, c2)) :
    scanRest cfg line text c =
      .ok (ds ++ (scanIncludeStep cfg line text c2).1, (scanIncludeStep cfg line text c2).2) := by
  unfold scanRest
  rw [hg]

lemma fllCore_facts (line : Nat) (text : String) (core : ScanCore) :
    ((if line = 0 then { core with firstLineLength := text.length } else core) :
        ScanCore).includeGuardLine = core.includeGuardLine ∧
    ((if line = 0 then { core with firstLineLength := text.length } else core) :
        ScanCore).pragmaOnceLine = core.pragmaOnceLine ∧
    ((if line = 0 then { core with firstLineLength := text.length } else core) :
        ScanCore).scanMax = core.scanMax := by
  split <;> exact ⟨rfl, rfl, rfl⟩

lemma ifndef_hash_shape {t : String} {m : String × String × String}
    (h : ifndefMatch t = some m) :
    ∃ rest, t.data.dropWhile isWsChar = '#' :: rest := by
  unfold ifndefMatch guardHeadMatch at h
  split at h
  · cases h
  · rename_i x heq
    obtain ⟨rest, hr, _⟩ := afterHash2_shape heq
    exact ⟨rest, hr⟩

lemma pragma_hash_shape {t : String} (h : pragmaMatch t = true) :
    ∃ rest, t.data.dropWhile isWsChar = '#' :: rest := by
  obtain ⟨r1, ha, _⟩ := pragma_shape h
  unfold afterHash at ha
  cases hy : afterHash2 t.data with
  | none => exact absurd ha (by simp [hy])
  | some x =>
    obtain ⟨rest, hr, _⟩ := afterHash2_shape hy
    exact ⟨rest, hr⟩

lemma hash_line_not_skipped {t : String} {rest : List Char}
    (h : t.data.dropWhile isWsChar = '#' :: rest) :
    ¬ ((t.data.dropWhile isWsChar).isEmpty = true ∨
      (t.data.dropWhile isWsChar).take 2 = ['/', '/']) := by
  rw [h]
  rintro (hc | hc)
  · simp at hc
  · have h2 : ('#' :: rest).take 2 = '#' :: rest.take 1 := rfl
    rw [h2] at hc
    injection hc with hh _
    exact absurd hh (by decide)

/-- Any diagnostic pushed by the loop body is an unused-include, bad-ifndef
or bad-define one. -/
lemma scanLine_ok_kinds (cfg : ScanCfg) (line : Nat) (text : String)
    (core : ScanCore) (r : List Diag × ScanCore)
    (h : scanLine cfg line text core = .ok r) :
    ∀ d ∈ r.1, d.kind = DiagKind.unusedInclude ∨ d.kind = DiagKind.guardBadIfndef ∨
      d.kind = DiagKind.guardBadDefine := by
  rcases scanLine_ok_decomp cfg line text core r h with ⟨_, h1, _, _⟩ |
    ⟨core1, rg, h1, h2, hg, hr⟩
  · rw [h1]; simp
  · obtain ⟨_, hk⟩ := scanGuardStep_transition cfg line text core1 rg hg
    intro d hd
    rw [hr] at hd
    simp only at hd
    rcases List.mem_append.mp hd with hd | hd
    · rcases hk d hd with hdk | hdk
      · exact Or.inr (Or.inl hdk)
      · exact Or.inr (Or.inr hdk)
    · exact Or.inl ((scanIncludeStep_facts cfg line text rg.2).2.2.2 d hd)

lemma scanLine_ok_igl_set (cfg : ScanCfg) (line : Nat) (text : String)
    (core : ScanCore) (r : List Diag × ScanCore)
    (higl : ¬ core.includeGuardLine = -1)
    (h : scanLine cfg line text core = .ok r) :
    r.2.includeGuardLine = core.includeGuardLine ∧
    r.2.pragmaOnceLine = core.pragmaOnceLine ∧
    (¬ core.pragmaOnceLine = -1 → ∀ d ∈ r.1, d.kind = DiagKind.unusedInclude) := by
  rcases scanLine_ok_decomp cfg line text core r h with ⟨_, h1, h2, h3⟩ |
    ⟨core1, rg, h1, h2, hg, hr⟩
  · exact ⟨h2, h3, fun _ d hd => by rw [h1] at hd; cases hd⟩
  · obtain ⟨hr2, _, hpol, _⟩ := scanGuardStep_igl_set cfg line text core1 rg
      (by rw [h1]; exact higl) hg
    obtain ⟨hi1, hi2, _, hik⟩ := scanIncludeStep_facts cfg line text rg.2
    rw [hr]
    refine ⟨by simp only; rw [hi1, hr2, h1], by simp only; rw [hi2, hr2, h2], ?_⟩
    intro hp d hd
    simp only at hd
    rcases List.mem_append.mp hd with hd | hd
    · rw [hpol (by rw [h2]; exact hp)] at hd
      cases hd
    · exact hik d hd

lemma scanLine_ok_clean_nomatch (cfg : ScanCfg) (line : Nat) (text : String)
    (core : ScanCore) (r : List Diag × ScanCore)
    (higl : core.includeGuardLine = -1)
    (hif : ifndefMatch text = none) (hpr : pragmaMatch text = false)
    (h : scanLine cfg line text core = .ok r) :
    r.2.includeGuardLine = -1 ∧ r.2.pragmaOnceLine = core.pragmaOnceLine ∧
    ∀ d ∈ r.1, d.kind = DiagKind.unusedInclude := by
  rcases scanLine_ok_decomp cfg line text core r h with ⟨_, h1, h2, h3⟩ |
    ⟨core1, rg, h1, h2, hg, hr⟩
  · exact ⟨h2.trans higl, h3, fun d hd => by rw [h1] at hd; cases hd⟩
  · have hrg : rg = ([], core1) :=
      scanGuardStep_clean_nomatch cfg line text core1 rg (h1.trans higl) hif hpr hg
    obtain ⟨hi1, hi2, _, hik⟩ := scanIncludeStep_facts cfg line text rg.2
    rw [hr]
    refine ⟨by simp only; rw [hi1, hrg]; exact h1.trans higl,
      by simp only; rw [hi2, hrg]; exact h2, ?_⟩
    intro d hd
    simp only at hd
    rcases List.mem_append.mp hd with hd | hd
    · rw [hrg] at hd; cases hd
    · exact hik d hd

lemma scanLine_ok_clean_pragma (cfg : ScanCfg) (line : Nat) (text : String)
    (core : ScanCore) (r : List Diag × ScanCore)
    (higl : core.includeGuardLine = -1) (hpr : pragmaMatch text = true)
    (hcheck : cfg.checkIncludeGuard = true)
    (h : scanLine cfg line text core = .ok r) :
    r.2.includeGuardLine = (line : Int) ∧ r.2.pragmaOnceLine = (line : Int) ∧
    ∀ d ∈ r.1, d.kind = DiagKind.unusedInclude := by
  obtain ⟨restH, hshape⟩ := pragma_hash_shape hpr
  rcases scanLine_ok_decomp cfg line text core r h with ⟨hcond, _, _, _⟩ |
    ⟨core1, rg, h1, h2, hg, hr⟩
  · exact absurd hcond (hash_line_not_skipped hshape)
  · have hrg := scanGuardStep_clean_pragma cfg line text core1 rg (h1.trans higl) hpr hcheck hg
    obtain ⟨hi1, hi2, _, hik⟩ := scanIncludeStep_facts cfg line text rg.2
    rw [hr]
    refine ⟨by simp only; rw [hi1, hrg], by simp only; rw [hi2, hrg], ?_⟩
    intro d hd
    simp only at hd
    rcases List.mem_append.mp hd with hd | hd
    · rw [hrg] at hd; cases hd
    · exact hik d hd

lemma scanLine_ok_clean_ifndef (cfg : ScanCfg) (line : Nat) (text : String)
    (core : ScanCore) (r : List Diag × ScanCore) (m : String × String × String)
    (higl : core.includeGuardLine = -1) (hif : ifndefMatch text = some m)
    (hcheck : cfg.checkIncludeGuard = true)
    (h : scanLine cfg line text core = .ok r) :
    r.2.includeGuardLine = (line : Int) ∧ r.2.pragmaOnceLine = core.pragmaOnceLine := by
  obtain ⟨restH, hshape⟩ := ifndef_hash_shape hif
  rcases scanLine_ok_decomp cfg line text core r h with ⟨hcond, _, _, _⟩ |
    ⟨core1, rg, h1, h2, hg, hr⟩
  · exact absurd hcond (hash_line_not_skipped hshape)
  · obtain ⟨hrg2, hrgp, _⟩ :=
      scanGuardStep_clean_ifndef cfg line text core1 rg m (h1.trans higl) hif hcheck hg
    obtain ⟨hi1, hi2, _, _⟩ := scanIncludeStep_facts cfg line text rg.2
    rw [hr]
    constructor
    · simp only
      rw [hi1, hrg2]
    · simp only
      rw [hi2, hrgp, h2]

lemma scanLine_ok_nocheck (cfg : ScanCfg) (line : Nat) (text : String)
    (core : ScanCore) (r : List Diag × ScanCore)
    (hcheck : cfg.checkIncludeGuard = false)
    (h : scanLine cfg line text core = .ok r) :
    r.2.includeGuardLine = core.includeGuardLine ∧
    r.2.pragmaOnceLine = core.pragmaOnceLine := by
  rcases scanLine_ok_decomp cfg line text core r h with ⟨_, _, h2, h3⟩ |
    ⟨core1, rg, h1, h2, hg, hr⟩
  · exact ⟨h2, h3⟩
  · rw [scanGuardStep_nocheck cfg line text core1 hcheck] at hg
    have hrg : rg = ([], core1) := (Except.ok.inj hg).symm
    obtain ⟨hi1, hi2, _, _⟩ := scanIncludeStep_facts cfg line text rg.2
    rw [hr]
    constructor
    · simp only; rw [hi1, hrg]; exact h1
    · simp only; rw [hi2, hrg]; exact h2

/-- The loop never pushes a missing-ifndef, missing-endif or bad-endif
diagnostic: those come only from the post-loop handling. -/
lemma scanLoop_ok_kinds (cfg : ScanCfg) (rest : List String) :
    ∀ (line : Nat) (core : ScanCore) (diags : List Diag) (r : List Diag × ScanCore),
      scanLoop cfg rest line core diags = .ok r →
      ∀ d ∈ r.1, d ∈ diags ∨ d.kind = DiagKind.unusedInclude ∨
        d.kind = DiagKind.guardBadIfndef ∨ d.kind = DiagKind.guardBadDefine := by
  induction rest with
  | nil =>
    intro line core diags r h d hd
    cases h
    exact Or.inl hd
  | cons text rest ih =>
    intro line core diags r h d hd
    unfold scanLoop at h
    split at h
    · split at h
      · cases h
      · rename_i r0 heq
        rcases ih (line + 1) r0.2 (diags ++ r0.1) r h d hd with hmem | hk
        · rcases List.mem_append.mp hmem with hmem | hmem
          · exact Or.inl hmem
          · exact Or.inr (scanLine_ok_kinds cfg line text core r0 heq d hmem)
        · exact Or.inr hk
    · cases h
      exact Or.inl hd

/-- Once a guard line is recorded the loop preserves both trackers, and in
the pragma-recorded state every further push is an unused-include. -/
lemma scanLoop_ok_igl_set (cfg : ScanCfg) (rest : List String) :
    ∀ (line : Nat) (core : ScanCore) (diags : List Diag) (r : List Diag × ScanCore),
      scanLoop cfg rest line core diags = .ok r →
      ¬ core.includeGuardLine = -1 →
      r.2.includeGuardLine = core.includeGuardLine ∧
      r.2.pragmaOnceLine = core.pragmaOnceLine ∧
      (¬ core.pragmaOnceLine = -1 →
        ∀ d ∈ r.1, d ∈ diags ∨ d.kind = DiagKind.unusedInclude) := by
  induction rest with
  | nil =>
    intro line core diags r h higl
    cases h
    exact ⟨rfl, rfl, fun _ d hd => Or.inl hd⟩
  | cons text rest ih =>
    intro line core diags r h higl
    unfold scanLoop at h
    split at h
    · split at h
      · cases h
      · rename_i r0 heq
        obtain ⟨h1, h2, h3⟩ := scanLine_ok_igl_set cfg line text core r0 higl heq
        obtain ⟨g1, g2, g3⟩ := ih (line + 1) r0.2 (diags ++ r0.1) r h (by rw [h1]; exact higl)
        refine ⟨g1.trans h1, g2.trans h2, fun hp d hd => ?_⟩
        rcases g3 (by rw [h2]; exact hp) d hd with hmem | hk
        · rcases List.mem_append.mp hmem with hmem | hmem
          · exact Or.inl hmem
          · exact Or.inr (h3 hp d hmem)
        · exact Or.inr hk
    · cases h
      exact ⟨rfl, rfl, fun _ d hd => Or.inl hd⟩

/-- While no line of the remaining document matches `INC_GUARD_IFNDEF` or
`PRAGMA_ONCE`, the guard line stays unrecorded and only unused-include
diagnostics are pushed. -/
lemma scanLoop_ok_clean_nomatch (cfg : ScanCfg) (rest : List String) :
    ∀ (line : Nat) (core : ScanCore) (diags : List Diag) (r : List Diag × ScanCore),
      scanLoop cfg rest line core diags = .ok r →
      (∀ t ∈ rest, ifndefMatch t = none ∧ pragmaMatch t = false) →
      core.includeGuardLine = -1 →
      r.2.includeGuardLine = -1 ∧
      ∀ d ∈ r.1, d ∈ diags ∨ d.kind = DiagKind.unusedInclude := by
  induction rest with
  | nil =>
    intro line core diags r h _ higl
    cases h
    exact ⟨higl, fun d hd => Or.inl hd⟩
  | cons text rest ih =>
    intro line core diags r h hall higl
    unfold scanLoop at h
    split at h
    · split at h
      · cases h
      · rename_i r0 heq
        obtain ⟨h1, _, h3⟩ := scanLine_ok_clean_nomatch cfg line text core r0 higl
          (hall text (by simp)).1 (hall text (by simp)).2 heq
        obtain ⟨g1, g2⟩ := ih (line + 1) r0.2 (diags ++ r0.1) r h
          (fun t ht => hall t (List.mem_cons_of_mem _ ht)) h1
        refine ⟨g1, fun d hd => ?_⟩
        rcases g2 d hd with hmem | hk
        · rcases List.mem_append.mp hmem with hmem | hmem
          · exact Or.inl hmem
          · exact Or.inr (h3 d hmem)
        · exact Or.inr hk
    · cases h
      exact ⟨higl, fun d hd => Or.inl hd⟩

/-- With guard checking off the trackers never move. -/
lemma scanLoop_ok_nocheck (cfg : ScanCfg) (rest : List String) :
    ∀ (line : Nat) (core : ScanCore) (diags : List Diag) (r : List Diag × ScanCore),
      scanLoop cfg rest line core diags = .ok r →
      cfg.checkIncludeGuard = false →
      r.2.pragmaOnceLine = core.pragmaOnceLine := by
  induction rest with
  | nil =>
    intro line core diags r h _
    cases h
    rfl
  | cons text rest ih =>
    intro line core diags r h hcheck
    unfold scanLoop at h
    split at h
    · split at h
      · cases h
      · rename_i r0 heq
        exact (ih (line + 1) r0.2 (diags ++ r0.1) r h hcheck).trans
          (scanLine_ok_nocheck cfg line text core r0 hcheck heq).2
    · cases h
      rfl

/-- If the final state has a recorded pragma line, every diagnostic the loop
pushed is an unused-include: the head-guard diagnostics can only be pushed
on the way to an `#ifndef`-recorded state, from which the pragma line can
never be set. -/
lemma scanLoop_ok_pol (cfg : ScanCfg) (rest : List String) :
    ∀ (line : Nat) (core : ScanCore) (diags : List Diag) (r : List Diag × ScanCore),
      scanLoop cfg rest line core diags = .ok r →
      cfg.checkIncludeGuard = true →
      core.includeGuardLine = -1 → core.pragmaOnceLine = -1 →
      ¬ r.2.pragmaOnceLine = -1 →
      ∀ d ∈ r.1, d ∈ diags ∨ d.kind = DiagKind.unusedInclude := by
  induction rest with
  | nil =>
    intro line core diags r h _ _ hpol hfin
    cases h
    exact absurd hpol hfin
  | cons text rest ih =>
    intro line core diags r h hcheck higl hpol hfin
    unfold scanLoop at h
    split at h
    · split at h
      · cases h
      · rename_i r0 heq
        by_cases hpr : pragmaMatch text = true
        · obtain ⟨h1, h2, h3⟩ := scanLine_ok_clean_pragma cfg line text core r0 higl hpr
            hcheck heq
          obtain ⟨_, _, g3⟩ := scanLoop_ok_igl_set cfg rest (line + 1) r0.2 (diags ++ r0.1)
            r h (by rw [h1]; omega)
          intro d hd
          rcases g3 (by rw [h2]; omega) d hd with hmem | hk
          · rcases List.mem_append.mp hmem with hmem | hmem
            · exact Or.inl hmem
            · exact Or.inr (h3 d hmem)
          · exact Or.inr hk
        · have hpr2 : pragmaMatch text = false := by
            cases hx : pragmaMatch text
            · rfl
            · exact absurd hx hpr
          cases hif : ifndefMatch text with
          | some m =>
            obtain ⟨h1, h2⟩ := scanLine_ok_clean_ifndef cfg line text core r0 m higl hif
              hcheck heq
            obtain ⟨_, g2, _⟩ := scanLoop_ok_igl_set cfg rest (line + 1) r0.2 (diags ++ r0.1)
              r h (by rw [h1]; omega)
            exact absurd (g2.trans (h2.trans hpol)) hfin
          | none =>
            obtain ⟨h1, h2, h3⟩ := scanLine_ok_clean_nomatch cfg line text core r0 higl hif
              hpr2 heq
            intro d hd
            rcases ih (line + 1) r0.2 (diags ++ r0.1) r h hcheck h1 (h2.trans hpol) hfin
                d hd with hmem | hk
            · rcases List.mem_append.mp hmem with hmem | hmem
              · exact Or.inl hmem
              · exact Or.inr (h3 d hmem)
            · exact Or.inr hk
    · cases h
      exact absurd hpol hfin

/-- One loop iteration either preserves both guard trackers or records the
guard line at the current line (possibly together with the pragma line). -/
lemma scanLine_ok_transition (cfg : ScanCfg) (line : Nat) (text : String)
    (core : ScanCore) (r : List Diag × ScanCore)
    (h : scanLine cfg line text core = .ok r) :
    (r.2.includeGuardLine = core.includeGuardLine ∧
      r.2.pragmaOnceLine = core.pragmaOnceLine) ∨
    r.2.includeGuardLine = (line : Int) := by
  rcases scanLine_ok_decomp cfg line text core r h with ⟨_, _, h2, h3⟩ |
    ⟨core1, rg, h1, h2, hg, hr⟩
  · exact Or.inl ⟨h2, h3⟩
  · obtain ⟨ht, _⟩ := scanGuardStep_transition cfg line text core1 rg hg
    obtain ⟨hi1, hi2, _, _⟩ := scanIncludeStep_facts cfg line text rg.2
    rw [hr]
    rcases ht with ht | ht | ht
    · exact Or.inl ⟨by simp only; rw [hi1, ht, h1], by simp only; rw [hi2, ht, h2]⟩
    · exact Or.inr (by simp only; rw [hi1, ht])
    · exact Or.inr (by simp only; rw [hi1, ht])

/-- The invariant "a recorded pragma line implies a recorded guard line" is
preserved by the loop. -/
lemma scanLoop_ok_inv (cfg : ScanCfg) (rest : List String) :
    ∀ (line : Nat) (core : ScanCore) (diags : List Diag) (r : List Diag × ScanCore),
      scanLoop cfg rest line core diags = .ok r →
      (¬ core.pragmaOnceLine = -1 → ¬ core.includeGuardLine = -1) →
      (¬ r.2.pragmaOnceLine = -1 → ¬ r.2.includeGuardLine = -1) := by
  induction rest with
  | nil =>
    intro line core diags r h hinv
    cases h
    exact hinv
  | cons text rest ih =>
    intro line core diags r h hinv
    unfold scanLoop at h
    split at h
    · split at h
      · cases h
      · rename_i r0 heq
        refine ih (line + 1) r0.2 (diags ++ r0.1) r h ?_
        rcases scanLine_ok_transition cfg line text core r0 heq with ⟨h1, h2⟩ | h1
        · rw [h1, h2]; exact hinv
        · rw [h1]; intro _; omega
    · cases h
      exact hinv

/-- Case analysis of the post-loop guard handling. -/
lemma scanPost_ok_shape (cfg : ScanCfg) (diags : List Diag) (core : ScanCore)
    (diags2 : List Diag) (h : scanPost cfg diags core = .ok diags2) :
    ((cfg.checkIncludeGuard = false ∨ ¬ core.includeGuardLine = -1) ∧ diags2 = diags) ∨
    (cfg.checkIncludeGuard = true ∧ core.includeGuardLine = -1 ∧
      diags2 = diags ++
        [⟨DiagKind.guardMissingIfndef, 0, 0, (core.firstLineLength : Int), none⟩]) ∨
    (cfg.checkIncludeGuard = true ∧ ¬ core.includeGuardLine = -1 ∧
      ∃ d1, (d1.kind = DiagKind.guardBadEndif ∨ d1.kind = DiagKind.guardMissingEndif) ∧
        diags2 = diags ++ [d1]) := by
  unfold scanPost at h
  split at h
  · rename_i hchk
    split at h
    · rename_i higl
      cases h
      exact Or.inr (Or.inl ⟨hchk, higl, rfl⟩)
    · rename_i higl
      split at h
      · split at h
        · split at h
          · cases h
            exact Or.inr (Or.inr ⟨hchk, higl, _, Or.inl rfl, rfl⟩)
          · cases h
        · cases h
          exact Or.inl ⟨Or.inr higl, rfl⟩
      · cases h
        exact Or.inr (Or.inr ⟨hchk, higl, _, Or.inr rfl, rfl⟩)
  · rename_i hchk
    cases h
    exact Or.inl ⟨Or.inl (by cases hx : cfg.checkIncludeGuard; rfl; exact absurd hx hchk), rfl⟩

lemma scanWithState_ok_split (cfg : ScanCfg) (diags : List Diag) (core : ScanCore)
    (h : scanWithState cfg = .ok (diags, core)) :
    ∃ d0, scanLoop cfg cfg.doc 0 (initCore cfg.scanMin) [] = .ok (d0, core) ∧
      scanPost cfg d0 core = .ok diags := by
  unfold scanWithState at h
  split at h
  · cases h
  · rename_i r0 hloop
    split at h
    · cases h
    · rename_i d2 hpost
      cases h
      exact ⟨r0.1, by rw [← hloop], hpost⟩

/-- C1 (amended): when the pragma-once line was recorded (which can only
happen before any `#ifndef`), a completed scan emits no guard-bad-ifndef,
guard-bad-define, or guard-missing-ifndef diagnostic; the endif checks are
not suppressed (see the counterexample), so only those three are ruled out. -/
theorem c1_pragma_suppresses_head_checks (cfg : ScanCfg) (diags : List Diag)
    (core : ScanCore)
    (hscan : scanWithState cfg = .ok (diags, core))
    (hpragma : ¬ core.pragmaOnceLine = -1) :
    ∀ d ∈ diags, d.kind ≠ DiagKind.guardBadIfndef ∧ d.kind ≠ DiagKind.guardBadDefine ∧
      d.kind ≠ DiagKind.guardMissingIfndef := by
  obtain ⟨d0, hloop, hpost⟩ := scanWithState_ok_split cfg diags core hscan
  have hinv : ¬ core.includeGuardLine = -1 := by
    have hl := scanLoop_ok_inv cfg cfg.doc 0 (initCore cfg.scanMin) [] (d0, core) hloop
    exact hl (fun hcon _ => hcon rfl) hpragma
  have hloopk : ∀ d ∈ d0, d.kind = DiagKind.unusedInclude := by
    cases hchk : cfg.checkIncludeGuard
    · have := scanLoop_ok_nocheck cfg cfg.doc 0 (initCore cfg.scanMin) [] (d0, core)
        hloop hchk
      exact absurd this (by simpa using hpragma)
    · intro d hd
      rcases scanLoop_ok_pol cfg cfg.doc 0 (initCore cfg.scanMin) [] (d0, core) hloop
          hchk rfl rfl hpragma d hd with hmem | hk
      · cases hmem
      · exact hk
  rcases scanPost_ok_shape cfg d0 core diags hpost with ⟨_, hsh⟩ | ⟨_, higl, _⟩ |
    ⟨_, _, d1, hd1, hsh⟩
  · intro d hd
    rw [hsh] at hd
    rw [hloopk d hd]
    refine ⟨by decide, by decide, by decide⟩
  · exact absurd higl hinv
  · intro d hd
    rw [hsh] at hd
    rcases List.mem_append.mp hd with hd | hd
    · rw [hloopk d hd]
      refine ⟨by decide, by decide, by decide⟩
    · simp at hd
      subst hd
      rcases hd1 with hd1 | hd1 <;> (rw [hd1]; refine ⟨by decide, by decide, by decide⟩)

/-- Witness for C1 (amended) at `["#pragma once"]`. -/
theorem c1_witness :
    (¬ (⟨101, 0, 0, -1, 12⟩ : ScanCore).pragmaOnceLine = -1) ∧
    ∀ d ∈ ([⟨DiagKind.guardMissingEndif, 0, 0, 12, none⟩] : List Diag),
      d.kind ≠ DiagKind.guardBadIfndef ∧ d.kind ≠ DiagKind.guardBadDefine ∧
      d.kind ≠ DiagKind.guardMissingIfndef :=
  ⟨by decide,
    c1_pragma_suppresses_head_checks
      ⟨["#pragma once"], [], 100, 10, "FOO_H_", true, true⟩
      [⟨DiagKind.guardMissingEndif, 0, 0, 12, none⟩] ⟨101, 0, 0, -1, 12⟩ rfl (by decide)⟩

/-- C2 (amended): a header document with no `#ifndef` and no `#pragma once`
anywhere gets, from a completed scan, exactly one guard-missing-ifndef
diagnostic, at line 0 — and no guard-missing-endif diagnostic. -/
theorem c2_no_guard_found (cfg : ScanCfg) (diags : List Diag)
    (hdoc : ∀ t ∈ cfg.doc, ifndefMatch t = none ∧ pragmaMatch t = false)
    (hcheck : cfg.checkIncludeGuard = true)
    (hscan : iwyuDiagnosticsScan cfg = .ok diags) :
    diags.countP (fun d => d.kind == DiagKind.guardMissingIfndef) = 1 ∧
    (∀ d ∈ diags, d.kind = DiagKind.guardMissingIfndef → d.line = 0) ∧
    diags.countP (fun d => d.kind == DiagKind.guardMissingEndif) = 0 := by
  unfold iwyuDiagnosticsScan at hscan
  cases hst : scanWithState cfg with
  | error e => rw [hst] at hscan; cases hscan
  | ok rr =>
    rw [hst] at hscan
    have hdg : rr.1 = diags := by simpa [Except.map] using hscan
    subst hdg
    obtain ⟨d0, hloop, hpost⟩ := scanWithState_ok_split cfg rr.1 rr.2 (by rw [hst])
    obtain ⟨hfin, hnew⟩ := scanLoop_ok_clean_nomatch cfg cfg.doc 0 (initCore cfg.scanMin)
      [] (d0, rr.2) hloop hdoc rfl
    have hd0 : ∀ d ∈ d0, d.kind = DiagKind.unusedInclude := by
      intro d hd
      rcases hnew d hd with hmem | hk
      · cases hmem
      · exact hk
    rcases scanPost_ok_shape cfg d0 rr.2 rr.1 hpost with ⟨hpro, _⟩ | ⟨_, _, hsh⟩ |
      ⟨_, higl, _⟩
    · rcases hpro with hpro | hpro
      · rw [hcheck] at hpro; cases hpro
      · exact absurd hfin hpro
    · rw [hsh]
      refine ⟨?_, ?_, ?_⟩
      · rw [List.countP_append]
        rw [List.countP_eq_zero.mpr (fun d hd => by rw [hd0 d hd]; decide)]
        rfl
      · intro d hd hk
        rcases List.mem_append.mp hd with hd | hd
        · rw [hd0 d hd] at hk; cases hk
        · simp at hd
          rw [hd]
      · rw [List.countP_append]
        rw [List.countP_eq_zero.mpr (fun d hd => by rw [hd0 d hd]; decide)]
        rfl
    · exact absurd hfin higl

/-- Witness for C2 (amended) at the single-comment-line header. -/
theorem c2_witness :
    (∀ t ∈ ((⟨["// c"], [], 100, 10, "FOO_H_", true, true⟩ : ScanCfg)).doc,
      ifndefMatch t = none ∧ pragmaMatch t = false) ∧
    (⟨["// c"], [], 100, 10, "FOO_H_", true, true⟩ : ScanCfg).checkIncludeGuard = true ∧
    (([⟨DiagKind.guardMissingIfndef, 0, 0, 4, none⟩] : List Diag).countP
        (fun d => d.kind == DiagKind.guardMissingIfndef) = 1 ∧
      (∀ d ∈ ([⟨DiagKind.guardMissingIfndef, 0, 0, 4, none⟩] : List Diag),
        d.kind = DiagKind.guardMissingIfndef → d.line = 0) ∧
      ([⟨DiagKind.guardMissingIfndef, 0, 0, 4, none⟩] : List Diag).countP
        (fun d => d.kind == DiagKind.guardMissingEndif) = 0) :=
  ⟨by decide, by decide,
    c2_no_guard_found ⟨["// c"], [], 100, 10, "FOO_H_", true, true⟩
      [⟨DiagKind.guardMissingIfndef, 0, 0, 4, none⟩] (by decide) (by decide) rfl⟩

/-!
## The missing-ifndef quick fix and its round-trip (C5)
-/

lemma identString_ne_empty {E : String} (hE : isIdentString E = true) : E ≠ "" := by
  obtain ⟨c, cs, hd, _, _⟩ := identString_shape E hE
  intro h
  rw [h] at hd
  cases hd

lemma includeTokenOf_ifndef (E : String) : includeTokenOf ("#ifndef " ++ E) = none := by
  have hdata : ("#ifndef " ++ E).data =
      '#' :: 'i' :: 'f' :: 'n' :: 'd' :: 'e' :: 'f' :: ' ' :: E.data := by
    rw [String.data_append]; rfl
  simp +decide [includeTokenOf, afterHash, afterHash2, expectKw, dropWs, wsPlus, hdata,
    List.dropWhile_cons, List.isPrefixOf, isWsChar]

lemma includeTokenOf_define (E : String) : includeTokenOf ("#define " ++ E) = none := by
  have hdata : ("#define " ++ E).data =
      '#' :: 'd' :: 'e' :: 'f' :: 'i' :: 'n' :: 'e' :: ' ' :: E.data := by
    rw [String.data_append]; rfl
  simp +decide [includeTokenOf, afterHash, afterHash2, expectKw, dropWs, wsPlus, hdata,
    List.dropWhile_cons, List.isPrefixOf, isWsChar]

lemma ifndefMatch_build (E : String) (hE : isIdentString E = true) :
    ifndefMatch ("#ifndef " ++ E) = some ("#ifndef", E, "") := by
  obtain ⟨c, cs, hd, hstart, hall⟩ := identString_shape E hE
  have hdata : ("#ifndef " ++ E).data =
      '#' :: 'i' :: 'f' :: 'n' :: 'd' :: 'e' :: 'f' :: ' ' :: c :: cs := by
    rw [String.data_append, hd]; rfl
  have hcw : isWsChar c = false := not_ws_of_identStart hstart
  have htw : cs.takeWhile isIdentChar = cs := List.takeWhile_eq_self_iff.mpr (by
    intro a ha; exact List.all_eq_true.mp hall a ha)
  have hdw : cs.dropWhile isIdentChar = [] := List.dropWhile_eq_nil_iff.mpr (by
    intro a ha; exact List.all_eq_true.mp hall a ha)
  have hmk : String.mk (c :: cs) = E := by rw [← hd]
  simp +decide [ifndefMatch, guardHeadMatch, afterHash2, expectKw, dropWs, wsPlus, hdata,
    identSpan, tailOpt, List.dropWhile_cons, List.takeWhile_cons, List.isPrefixOf,
    hcw, hstart, htw, hdw, hmk]

lemma defineMatch_build (E : String) (hE : isIdentString E = true) :
    defineMatch ("#define " ++ E) = some ("#define", E, "") := by
  obtain ⟨c, cs, hd, hstart, hall⟩ := identString_shape E hE
  have hdata : ("#define " ++ E).data =
      '#' :: 'd' :: 'e' :: 'f' :: 'i' :: 'n' :: 'e' :: ' ' :: c :: cs := by
    rw [String.data_append, hd]; rfl
  have hcw : isWsChar c = false := not_ws_of_identStart hstart
  have htw : cs.takeWhile isIdentChar = cs := List.takeWhile_eq_self_iff.mpr (by
    intro a ha; exact List.all_eq_true.mp hall a ha)
  have hdw : cs.dropWhile isIdentChar = [] := List.dropWhile_eq_nil_iff.mpr (by
    intro a ha; exact List.all_eq_true.mp hall a ha)
  have hmk : String.mk (c :: cs) = E := by rw [← hd]
  simp +decide [defineMatch, guardHeadMatch, afterHash2, expectKw, dropWs, wsPlus, hdata,
    identSpan, tailOpt, List.dropWhile_cons, List.takeWhile_cons, List.isPrefixOf,
    hcw, hstart, htw, hdw, hmk]

lemma endifMatch_build (E : String) (hE : isIdentString E = true) :
    endifMatch ("#endif  // " ++ E) = some E := by
  obtain ⟨c, cs, hd, hstart, hall⟩ := identString_shape E hE
  have hdata : ("#endif  // " ++ E).data =
      '#' :: 'e' :: 'n' :: 'd' :: 'i' :: 'f' :: ' ' :: ' ' :: '/' :: '/' :: ' ' :: c :: cs := by
    rw [String.data_append, hd]; rfl
  have hcw : isWsChar c = false := not_ws_of_identStart hstart
  have htw : cs.takeWhile isIdentChar = cs := List.takeWhile_eq_self_iff.mpr (by
    intro a ha; exact List.all_eq_true.mp hall a ha)
  have hdw : cs.dropWhile isIdentChar = [] := List.dropWhile_eq_nil_iff.mpr (by
    intro a ha; exact List.all_eq_true.mp hall a ha)
  have hmk : String.mk (c :: cs) = E := by rw [← hd]
  simp +decide [endifMatch, afterHash, afterHash2, expectKw, dropWs, wsPlus, hdata,
    identSpan, tailOpt, List.dropWhile_cons, List.takeWhile_cons, List.isPrefixOf,
    hcw, hstart, htw, hdw, hmk]

lemma ifndefId_build (E : String) (hE : isIdentString E = true) :
    ifndefId ("#ifndef " ++ E) = E := by
  unfold ifndefId
  rw [ifndefMatch_build E hE]
  rfl

lemma defineId_build (E : String) (hE : isIdentString E = true) :
    defineId ("#define " ++ E) = E := by
  unfold defineId
  rw [defineMatch_build E hE]
  rfl

lemma getD_append_offset (l l2 : List String) (n : Nat) :
    (l ++ l2).getD (l.length + n) "" = l2.getD n "" := by
  induction l with
  | nil => simp
  | cons a l ih =>
    have harr : (a :: l).length + n = (l.length + n) + 1 := by
      simp only [List.length_cons]
      omega
    rw [List.cons_append, harr]
    show (l ++ l2).getD (l.length + n) "" = l2.getD n ""
    exact ih

lemma findSomeRange10 {α : Type} (g : Nat → Option α) (v : α)
    (h0 : g 0 = none) (h1 : g 1 = some v) :
    (List.range 10).findSome? g = some v := by
  have hcons : ∀ (x : Nat) (xs : List Nat),
      (x :: xs).findSome? g = (match g x with
        | some b => some b
        | none => xs.findSome? g) := fun x xs => rfl
  rw [show List.range 10 = 0 :: 1 :: [2, 3, 4, 5, 6, 7, 8, 9] from rfl,
    hcons, h0, hcons, h1]

/-- The backward `#endif` search on the fixed document finds the appended
`#endif  // E` on its second probe (the very last line is empty). -/
lemma backFindEndif_fixed (a b E : String) (doc : List String)
    (hend : endifMatch ("#endif  // " ++ E) = some E) :
    backFindEndif (a :: b :: (doc ++ ["#endif  // " ++ E, ""])) (doc.length + 3) =
      some (doc.length + 2, E) := by
  have h3 : (a :: b :: (doc ++ ["#endif  // " ++ E, ""])).getD (doc.length + 3) "" = "" :=
    getD_append_offset doc ["#endif  // " ++ E, ""] 1
  have h2 : (a :: b :: (doc ++ ["#endif  // " ++ E, ""])).getD (doc.length + 2) "" =
      "#endif  // " ++ E :=
    getD_append_offset doc ["#endif  // " ++ E, ""] 0
  unfold backFindEndif
  refine findSomeRange10 _ (doc.length + 2, E) ?_ ?_
  · show (if 0 < doc.length + 3 - 0 then
        (endifMatch ((a :: b :: (doc ++ ["#endif  // " ++ E, ""])).getD
          (doc.length + 3 - 0) "")).map (fun g => (doc.length + 3 - 0, g))
      else none) = none
    rw [show doc.length + 3 - 0 = doc.length + 3 from rfl]
    rw [if_pos (by omega), h3]
    rfl
  · show (if 0 < doc.length + 3 - 1 then
        (endifMatch ((a :: b :: (doc ++ ["#endif  // " ++ E, ""])).getD
          (doc.length + 3 - 1) "")).map (fun g => (doc.length + 3 - 1, g))
      else none) = some (doc.length + 2, E)
    rw [show doc.length + 3 - 1 = doc.length + 2 from rfl]
    rw [if_pos (by omega), h2, hend]
    rfl

/-!
### The loop on lines past a recorded guard line
-/

lemma scanGuardStep_stuck (cfg : ScanCfg) (line : Nat) (text : String) (core : ScanCore)
    (higl : ¬ core.includeGuardLine = -1)
    (hline : ¬ (line : Int) = core.includeGuardLine + 1) :
    scanGuardStep cfg line text core = .ok ([], core) := by
  unfold scanGuardStep
  split
  · have hrec : guardRecordStep cfg line text core = ([], core) := by
      unfold guardRecordStep
      rw [if_neg higl]
    rw [hrec]
    exact guardDefineStep_skip_line cfg line text ([], core) hline
  · rfl

lemma scanRest_stuck (cfg : ScanCfg) (line : Nat) (text : String) (core : ScanCore)
    (higl : ¬ core.includeGuardLine = -1)
    (hline : ¬ (line : Int) = core.includeGuardLine + 1) :
    scanRest cfg line text core =
      .ok ((scanIncludeStep cfg line text core).1, (scanIncludeStep cfg line text core).2) := by
  rw [scanRest_of_guard_ok cfg line text core core []
    (scanGuardStep_stuck cfg line text core higl hline)]
  rw [List.nil_append]

lemma scanLineMin_stuck (cfg : ScanCfg) (line : Nat) (text : String) (core : ScanCore)
    (higl : ¬ core.includeGuardLine = -1)
    (hline : ¬ (line : Int) = core.includeGuardLine + 1) :
    ∃ r, scanLineMin cfg line text core = .ok r ∧
      r.2.includeGuardLine = core.includeGuardLine ∧
      r.2.pragmaOnceLine = core.pragmaOnceLine ∧
      ∀ d ∈ r.1, d.kind = DiagKind.unusedInclude := by
  unfold scanLineMin
  split
  · split
    · exact ⟨([], bumpWindow core), rfl, rfl, rfl, fun d hd => absurd hd (List.not_mem_nil d)⟩
    · split
      · exact ⟨([], bumpWindow core), rfl, rfl, rfl, fun d hd => absurd hd (List.not_mem_nil d)⟩
      · split
        · obtain ⟨hi1, hi2, _, hik⟩ := scanIncludeStep_facts cfg line text (bumpWindow core)
          exact ⟨_, scanRest_stuck cfg line text (bumpWindow core) higl hline, hi1, hi2, hik⟩
        · obtain ⟨hi1, hi2, _, hik⟩ := scanIncludeStep_facts cfg line text core
          exact ⟨_, scanRest_stuck cfg line text core higl hline, hi1, hi2, hik⟩
  · obtain ⟨hi1, hi2, _, hik⟩ := scanIncludeStep_facts cfg line text core
    exact ⟨_, scanRest_stuck cfg line text core higl hline, hi1, hi2, hik⟩

lemma scanLine_stuck (cfg : ScanCfg) (line : Nat) (text : String) (core : ScanCore)
    (higl : ¬ core.includeGuardLine = -1)
    (hline : ¬ (line : Int) = core.includeGuardLine + 1) :
    ∃ r, scanLine cfg line text core = .ok r ∧
      r.2.includeGuardLine = core.includeGuardLine ∧
      r.2.pragmaOnceLine = core.pragmaOnceLine ∧
      ∀ d ∈ r.1, d.kind = DiagKind.unusedInclude := by
  unfold scanLine
  obtain ⟨hf1, hf2, _⟩ := fllCore_facts line text core
  obtain ⟨r, hr, h1, h2, h3⟩ := scanLineMin_stuck cfg line text
    (if line = 0 then { core with firstLineLength := text.length } else core)
    (by rw [hf1]; exact higl) (by rw [hf1]; exact hline)
  exact ⟨r, hr, by rw [h1, hf1], by rw [h2, hf2], h3⟩

lemma scanLoop_cons_ok (cfg : ScanCfg) (text : String) (rest : List String)
    (line : Nat) (core : ScanCore) (diags ds : List Diag) (c2 : ScanCore)
    (hlt : line < core.scanMax)
    (hstep : scanLine cfg line text core = .ok (ds, c2)) :
    scanLoop cfg (text :: rest) line core diags =
      scanLoop cfg rest (line + 1) c2 (diags ++ ds) := by
  conv_lhs => unfold scanLoop
  rw [if_pos hlt, hstep]

lemma scanLoop_stuck (cfg : ScanCfg) (rest : List String) :
    ∀ (line : Nat) (core : ScanCore) (diags : List Diag),
      ¬ core.includeGuardLine = -1 →
      core.includeGuardLine + 1 < (line : Int) →
      ∃ r, scanLoop cfg rest line core diags = .ok r ∧
        r.2.includeGuardLine = core.includeGuardLine ∧
        r.2.pragmaOnceLine = core.pragmaOnceLine ∧
        ∀ d ∈ r.1, d ∈ diags ∨ d.kind = DiagKind.unusedInclude := by
  induction rest with
  | nil =>
    intro line core diags _ _
    exact ⟨(diags, core), rfl, rfl, rfl, fun d hd => Or.inl hd⟩
  | cons text rest ih =>
    intro line core diags higl hline
    by_cases hlt : line < core.scanMax
    · obtain ⟨r0, hr0, h1, h2, h3⟩ := scanLine_stuck cfg line text core higl
        (by intro hcon; omega)
      have hstep : scanLine cfg line text core = .ok (r0.1, r0.2) := hr0
      obtain ⟨r, hr, hi, hp, hk⟩ := ih (line + 1) r0.2 (diags ++ r0.1)
        (by rw [h1]; exact higl) (by rw [h1]; push_cast; omega)
      refine ⟨r, ?_, by rw [hi, h1], by rw [hp, h2], fun d hd => ?_⟩
      · rw [scanLoop_cons_ok cfg text rest line core diags r0.1 r0.2 hlt hstep]
        exact hr
      · rcases hk d hd with hmem | hkd
        · rcases List.mem_append.mp hmem with hm | hm
          · exact Or.inl hm
          · exact Or.inr (h3 d hm)
        · exact Or.inr hkd
    · refine ⟨(diags, core), ?_, rfl, rfl, fun d hd => Or.inl hd⟩
      unfold scanLoop
      rw [if_neg hlt]

/-!
### The first two lines of the fixed document
-/

lemma scanRest_fix0 (cfg : ScanCfg) (E : String) (core : ScanCore)
    (hE : isIdentString E = true) (higl : core.includeGuardLine = -1)
    (hchk : cfg.checkIncludeGuard = true) (hexp : cfg.expectedIncludeGuard = E) :
    scanRest cfg 0 ("#ifndef " ++ E) core =
      .ok ([], { core with includeGuardLine := 0 }) := by
  have hrec : guardRecordStep cfg 0 ("#ifndef " ++ E) core =
      ([], { core with includeGuardLine := 0 }) := by
    unfold guardRecordStep
    rw [if_pos higl, ifndefId_build E hE, hexp]
    rw [if_pos (identString_ne_empty hE)]
    rw [if_neg (show ¬ (E ≠ E) from fun h => h rfl)]
    rw [pragmaStep_no _ _ _ (pragmaMatch_eq_false_of_ifndef (ifndefMatch_build E hE))]
    rfl
  have hg : scanGuardStep cfg 0 ("#ifndef " ++ E) core =
      .ok ([], { core with includeGuardLine := 0 }) := by
    unfold scanGuardStep
    rw [hchk, if_pos rfl, hrec]
    exact guardDefineStep_skip_line cfg 0 ("#ifndef " ++ E) _ (by simp)
  rw [scanRest_of_guard_ok cfg 0 ("#ifndef " ++ E) core { core with includeGuardLine := 0 }
    [] hg]
  have hinc : scanIncludeStep cfg 0 ("#ifndef " ++ E) { core with includeGuardLine := 0 } =
      ([], { core with includeGuardLine := 0 }) := by
    unfold scanIncludeStep
    rw [includeTokenOf_ifndef E]
  rw [hinc]
  rfl

lemma scanLine_fix0 (cfg : ScanCfg) (E : String) (hE : isIdentString E = true)
    (hmin : 1 ≤ cfg.scanMin) (hchk : cfg.checkIncludeGuard = true)
    (hexp : cfg.expectedIncludeGuard = E) :
    scanLine cfg 0 ("#ifndef " ++ E) (initCore cfg.scanMin) =
      .ok ([], ⟨cfg.scanMin + 1, 0, -1, -1, ("#ifndef " ++ E).length⟩) := by
  have hdw : (("#ifndef " ++ E).data.dropWhile isWsChar) =
      '#' :: 'i' :: 'f' :: 'n' :: 'd' :: 'e' :: 'f' :: ' ' :: E.data := by
    rw [show ("#ifndef " ++ E).data =
      '#' :: 'i' :: 'f' :: 'n' :: 'd' :: 'e' :: 'f' :: ' ' :: E.data from by
        rw [String.data_append]; rfl]
    rw [List.dropWhile_cons, if_neg (by decide)]
  unfold scanLine
  rw [if_pos (show (0 : Nat) = 0 from rfl)]
  unfold scanLineMin
  rw [if_pos (show 0 < cfg.scanMin from hmin)]
  rw [if_neg (by rw [hdw]; simp), if_neg (by rw [hdw]; simp +decide), if_pos (by rw [hdw]; rfl)]
  exact scanRest_fix0 cfg E _ hE rfl hchk hexp

lemma scanRest_fix1 (cfg : ScanCfg) (E : String) (core : ScanCore)
    (hE : isIdentString E = true) (higl : core.includeGuardLine = 0)
    (hpol : core.pragmaOnceLine = -1)
    (hchk : cfg.checkIncludeGuard = true) (hexp : cfg.expectedIncludeGuard = E) :
    scanRest cfg 1 ("#define " ++ E) core = .ok ([], core) := by
  have hrec : guardRecordStep cfg 1 ("#define " ++ E) core = ([], core) := by
    unfold guardRecordStep
    rw [if_neg (show ¬ core.includeGuardLine = -1 from by rw [higl]; decide)]
  have hdef : guardDefineStep cfg 1 ("#define " ++ E) ([], core) = .ok ([], core) := by
    unfold guardDefineStep
    rw [if_pos ⟨hpol, show ((1 : Nat) : Int) = core.includeGuardLine + 1 from by
      rw [higl]; decide⟩]
    rw [defineId_build E hE, hexp]
    rw [if_neg (show ¬ (E ≠ E) from fun h => h rfl)]
  have hg : scanGuardStep cfg 1 ("#define " ++ E) core = .ok ([], core) := by
    unfold scanGuardStep
    rw [hchk, if_pos rfl, hrec]
    exact hdef
  rw [scanRest_of_guard_ok cfg 1 ("#define " ++ E) core core [] hg]
  have hinc : scanIncludeStep cfg 1 ("#define " ++ E) core = ([], core) := by
    unfold scanIncludeStep
    rw [includeTokenOf_define E]
  rw [hinc]
  rfl

lemma scanLine_fix1 (cfg : ScanCfg) (E : String) (core : ScanCore)
    (hE : isIdentString E = true) (higl : core.includeGuardLine = 0)
    (hpol : core.pragmaOnceLine = -1)
    (hchk : cfg.checkIncludeGuard = true) (hexp : cfg.expectedIncludeGuard = E) :
    ∃ core2, scanLine cfg 1 ("#define " ++ E) core = .ok ([], core2) ∧
      core2.includeGuardLine = 0 ∧ core2.pragmaOnceLine = -1 := by
  have hdw : (("#define " ++ E).data.dropWhile isWsChar) =
      '#' :: 'd' :: 'e' :: 'f' :: 'i' :: 'n' :: 'e' :: ' ' :: E.data := by
    rw [show ("#define " ++ E).data =
      '#' :: 'd' :: 'e' :: 'f' :: 'i' :: 'n' :: 'e' :: ' ' :: E.data from by
        rw [String.data_append]; rfl]
    rw [List.dropWhile_cons, if_neg (by decide)]
  unfold scanLine
  rw [if_neg (show ¬ ((1 : Nat) = 0) by decide)]
  unfold scanLineMin
  by_cases hsm : 1 < cfg.scanMin
  · rw [if_pos hsm]
    rw [if_neg (by rw [hdw]; simp), if_neg (by rw [hdw]; simp +decide), if_pos (by rw [hdw]; rfl)]
    exact ⟨bumpWindow core, scanRest_fix1 cfg E (bumpWindow core) hE higl hpol hchk hexp,
      higl, hpol⟩
  · rw [if_neg hsm]
    exact ⟨core, scanRest_fix1 cfg E core hE higl hpol hchk hexp, higl, hpol⟩

/-- Scanning the result of the missing-ifndef quick fix yields only
unused-include diagnostics. -/
lemma scan_fixed_doc (cfg2 : ScanCfg) (E : String) (doc : List String)
    (hdoc : cfg2.doc = ("#ifndef " ++ E) :: ("#define " ++ E) ::
      (doc ++ ["#endif  // " ++ E, ""]))
    (hE : isIdentString E = true) (hmin : 1 ≤ cfg2.scanMin)
    (hchk : cfg2.checkIncludeGuard = true) (hexp : cfg2.expectedIncludeGuard = E) :
    ∃ diags2, iwyuDiagnosticsScan cfg2 = .ok diags2 ∧
      ∀ d ∈ diags2, d.kind = DiagKind.unusedInclude := by
  have h0 : scanLine cfg2 0 ("#ifndef " ++ E) (initCore cfg2.scanMin) =
      .ok ([], ⟨cfg2.scanMin + 1, 0, -1, -1, ("#ifndef " ++ E).length⟩) :=
    scanLine_fix0 cfg2 E hE hmin hchk hexp
  obtain ⟨core2, h1, hi2, hp2⟩ := scanLine_fix1 cfg2 E
    ⟨cfg2.scanMin + 1, 0, -1, -1, ("#ifndef " ++ E).length⟩ hE rfl rfl hchk hexp
  obtain ⟨r, hr, hri, hrp, hrk⟩ := scanLoop_stuck cfg2 (doc ++ ["#endif  // " ++ E, ""])
    2 core2 (([] ++ []) ++ []) (by rw [hi2]; decide) (by rw [hi2]; decide)
  have hloopAll : scanLoop cfg2 (("#ifndef " ++ E) :: ("#define " ++ E) ::
      (doc ++ ["#endif  // " ++ E, ""])) 0 (initCore cfg2.scanMin) [] = .ok r := by
    rw [scanLoop_cons_ok cfg2 ("#ifndef " ++ E) (("#define " ++ E) ::
        (doc ++ ["#endif  // " ++ E, ""])) 0 (initCore cfg2.scanMin) []
        [] ⟨cfg2.scanMin + 1, 0, -1, -1, ("#ifndef " ++ E).length⟩
        (show 0 < (initCore cfg2.scanMin).scanMax from hmin) h0]
    rw [scanLoop_cons_ok cfg2 ("#define " ++ E) (doc ++ ["#endif  // " ++ E, ""]) 1
        ⟨cfg2.scanMin + 1, 0, -1, -1, ("#ifndef " ++ E).length⟩ ([] ++ []) [] core2
        (by show (1 : Nat) < cfg2.scanMin + 1; omega) h1]
    exact hr
  have higl2 : r.2.includeGuardLine = 0 := by rw [hri, hi2]
  have hpost2 : scanPost cfg2 r.1 r.2 = .ok r.1 := by
    unfold scanPost
    rw [hchk, if_pos rfl]
    rw [if_neg (show ¬ r.2.includeGuardLine = -1 from by rw [higl2]; decide)]
    rw [hdoc]
    rw [show (("#ifndef " ++ E) :: ("#define " ++ E) ::
        (doc ++ ["#endif  // " ++ E, ""])).length - 1 = doc.length + 3 from by
      simp only [List.length_cons, List.length_append, List.length_nil]
      omega]
    rw [backFindEndif_fixed ("#ifndef " ++ E) ("#define " ++ E) E doc
      (endifMatch_build E hE)]
    rw [hexp]
    simp
  have hsw : scanWithState cfg2 = .ok (r.1, r.2) := by
    unfold scanWithState
    rw [hdoc]
    simp only [hloopAll, hpost2]
  have hscan2 : iwyuDiagnosticsScan cfg2 = .ok r.1 := by
    unfold iwyuDiagnosticsScan
    rw [hsw]
    rfl
  refine ⟨r.1, hscan2, fun d hd => ?_⟩
  rcases hrk d hd with hmem | hk
  · exact absurd hmem (by simp)
  · exact hk

/-- If a completed scan of a document starting at a sufficient minimum window
left the guard line unrecorded, the first line cannot match
`INC_GUARD_IFNDEF`. -/
lemma scanLoop_head_not_ifndef (cfg : ScanCfg) (t : String) (rest : List String)
    (r : List Diag × ScanCore)
    (hloop : scanLoop cfg (t :: rest) 0 (initCore cfg.scanMin) [] = .ok r)
    (hmin : 1 ≤ cfg.scanMin) (hchk : cfg.checkIncludeGuard = true)
    (hfin : r.2.includeGuardLine = -1) :
    ifndefMatch t = none := by
  cases hif : ifndefMatch t with
  | none => rfl
  | some m =>
    exfalso
    unfold scanLoop at hloop
    rw [if_pos (show (0 : Nat) < (initCore cfg.scanMin).scanMax from hmin)] at hloop
    cases heq : scanLine cfg 0 t (initCore cfg.scanMin) with
    | error e => rw [heq] at hloop; cases hloop
    | ok r0 =>
      rw [heq] at hloop
      obtain ⟨h1, _⟩ := scanLine_ok_clean_ifndef cfg 0 t (initCore cfg.scanMin) r0 m rfl hif
        hchk heq
      obtain ⟨g1, _, _⟩ := scanLoop_ok_igl_set cfg rest 1 r0.2 ([] ++ r0.1) r hloop
        (by rw [h1]; decide)
      rw [hfin, h1] at g1
      exact absurd g1 (by decide)

/-- C5: round-trip of the missing-ifndef quick fix.  For every configuration
with a positive minimum scan window and a well-formed expected guard
identifier whose scan completes and reports a guard-missing-ifndef
diagnostic, applying `fixMissingIfndef` (the quick fix synthesized for that
diagnostic) and re-scanning the resulting document succeeds and yields no
guard diagnostic of any kind (at most unused-include diagnostics remain). -/
theorem c5_missing_ifndef_fix_roundtrip (cfg : ScanCfg) (diags : List Diag)
    (hmin : 1 ≤ cfg.scanMin)
    (hE : isIdentString cfg.expectedIncludeGuard = true)
    (hscan : iwyuDiagnosticsScan cfg = .ok diags)
    (hmiss : ∃ d ∈ diags, d.kind = DiagKind.guardMissingIfndef) :
    ∃ diags2,
      iwyuDiagnosticsScan
        { cfg with doc := fixMissingIfndef cfg.doc cfg.expectedIncludeGuard } = .ok diags2 ∧
      diags2.filter (fun d => !(d.kind == DiagKind.unusedInclude)) = [] := by
  unfold iwyuDiagnosticsScan at hscan
  cases hst : scanWithState cfg with
  | error e => rw [hst] at hscan; cases hscan
  | ok rr =>
    rw [hst] at hscan
    have hdg : rr.1 = diags := by simpa [Except.map] using hscan
    subst hdg
    obtain ⟨d0, hloop, hpost⟩ := scanWithState_ok_split cfg rr.1 rr.2 (by rw [hst])
    have hd0 := scanLoop_ok_kinds cfg cfg.doc 0 (initCore cfg.scanMin) [] (d0, rr.2) hloop
    rcases scanPost_ok_shape cfg d0 rr.2 rr.1 hpost with ⟨_, hsh⟩ | ⟨hchk, higl, _⟩ |
      ⟨_, _, d1, hd1k, hsh⟩
    · exfalso
      obtain ⟨d, hd, hk⟩ := hmiss
      rw [hsh] at hd
      rcases hd0 d hd with h | h | h | h
      · cases h
      · rw [hk] at h; cases h
      · rw [hk] at h; cases h
      · rw [hk] at h; cases h
    · have hhead : ifndefMatch (cfg.doc.headD "") = none := by
        cases hdocs : cfg.doc with
        | nil => rfl
        | cons t rest =>
          rw [hdocs] at hloop
          exact scanLoop_head_not_ifndef cfg t rest (d0, rr.2) hloop hmin hchk higl
      have hfix : fixMissingIfndef cfg.doc cfg.expectedIncludeGuard =
          ("#ifndef " ++ cfg.expectedIncludeGuard) ::
          ("#define " ++ cfg.expectedIncludeGuard) ::
          (cfg.doc ++ ["#endif  // " ++ cfg.expectedIncludeGuard, ""]) := by
        unfold fixMissingIfndef
        rw [hhead]
      obtain ⟨diags2, hs2, hk2⟩ := scan_fixed_doc
        { cfg with doc := fixMissingIfndef cfg.doc cfg.expectedIncludeGuard }
        cfg.expectedIncludeGuard cfg.doc hfix hE hmin hchk rfl
      refine ⟨diags2, hs2, List.filter_eq_nil_iff.mpr ?_⟩
      intro d hd
      simp [hk2 d hd]
    · exfalso
      obtain ⟨d, hd, hk⟩ := hmiss
      rw [hsh] at hd
      rcases List.mem_append.mp hd with hd | hd
      · rcases hd0 d hd with h | h | h | h
        · cases h
        · rw [hk] at h; cases h
        · rw [hk] at h; cases h
        · rw [hk] at h; cases h
      · simp at hd
        subst hd
        rcases hd1k with h | h <;> (rw [hk] at h; cases h)

/-- Witness for C5: the single-comment-line header `// c` with expected guard
`FOO_H_` and `scan_min = 1`; the fix prepends the guard pair and appends the
`#endif` comment line, and the re-scan is clean. -/
theorem c5_witness :
    (1 ≤ (⟨["// c"], [], 1, 10, "FOO_H_", true, true⟩ : ScanCfg).scanMin) ∧
    isIdentString (⟨["// c"], [], 1, 10, "FOO_H_", true, true⟩ : ScanCfg).expectedIncludeGuard
      = true ∧
    iwyuDiagnosticsScan (⟨["// c"], [], 1, 10, "FOO_H_", true, true⟩ : ScanCfg) =
      .ok [⟨DiagKind.guardMissingIfndef, 0, 0, 4, none⟩] ∧
    (∃ d ∈ ([⟨DiagKind.guardMissingIfndef, 0, 0, 4, none⟩] : List Diag),
      d.kind = DiagKind.guardMissingIfndef) ∧
    ∃ diags2,
      iwyuDiagnosticsScan
        { (⟨["// c"], [], 1, 10, "FOO_H_", true, true⟩ : ScanCfg) with
          doc := fixMissingIfndef ["// c"] "FOO_H_" } = .ok diags2 ∧
      diags2.filter (fun d => !(d.kind == DiagKind.unusedInclude)) = [] :=
  ⟨by decide, by decide, rfl, ⟨⟨DiagKind.guardMissingIfndef, 0, 0, 4, none⟩, by simp, rfl⟩,
    c5_missing_ifndef_fix_roundtrip ⟨["// c"], [], 1, 10, "FOO_H_", true, true⟩
      [⟨DiagKind.guardMissingIfndef, 0, 0, 4, none⟩] (by decide) (by decide) rfl
      ⟨⟨DiagKind.guardMissingIfndef, 0, 0, 4, none⟩, by simp, rfl⟩⟩

/-- C8: five blank lines then `#include "a.h"` at line 5, with that token in
the remove list and `scan_min = 3`: the blank lines below the minimum budget
each extend the window (3 → 6), so line 5 is reached and exactly one
unused-include diagnostic is emitted there (full-line mode: columns 0-14). -/
theorem c8_blank_lines_extend_window :
    iwyuDiagnosticsScan
      ⟨["", "", "", "", "", "#include \"a.h\""],
        [⟨"\"a.h\"", "#include \"a.h\""⟩], 3, 10, "", false, true⟩ =
    .ok [⟨.unusedInclude, 5, 0, 14, none⟩] := rfl

/-- C1 counterexample: two documents whose pragma-once line is seen first
(final `pragmaOnceLine = 0`, before any `#ifndef`), for which the scan still
emits a guard-missing-endif (first document) and a guard-bad-endif (second
document): the backward `#endif` pass of lines 734-759 does not consult
`pragmaOnceLine`, so the claim's list of suppressed diagnostics is wrong
about the endif ones. -/
theorem c1_counterexample :
    (scanWithState ⟨["#pragma once", "int x;"], [], 100, 10, "FOO_H_", true, true⟩ =
      .ok ([⟨.guardMissingEndif, 1, 0, 6, none⟩], ⟨101, 0, 0, -1, 12⟩)) ∧
    (scanWithState ⟨["#pragma once", "#endif  // WRONG"], [], 100, 10, "FOO_H_", true, true⟩ =
      .ok ([⟨.guardBadEndif, 1, 0, 16, some (0, 12)⟩], ⟨102, 0, 0, -1, 12⟩)) :=
  ⟨rfl, rfl⟩

/-- C2 counterexample: header `// c` (no `#ifndef`, no `#pragma once`
anywhere), guard checking on: the scan emits exactly one
guard-missing-ifndef at line 0 and NO guard-missing-endif — the endif branch
(lines 734-759) is only reached when a guard line was recorded, so the
claim's "exactly one guard-missing-endif at the last line" is wrong. -/
theorem c2_counterexample :
    iwyuDiagnosticsScan ⟨["// c"], [], 100, 10, "FOO_H_", true, true⟩ =
      .ok [⟨.guardMissingIfndef, 0, 0, 4, none⟩] ∧
    List.countP (fun d => d.kind == DiagKind.guardMissingEndif)
      [(⟨.guardMissingIfndef, 0, 0, 4, none⟩ : Diag)] = 0 :=
  ⟨rfl, rfl⟩

end Iwyu

